import Mathlib

/-!
# Verification of the bughouse orchestrator against its design spec

Shallow embedding of the bughouse chess orchestrator (`BughouseGame`,
`Board`, `PiecePool`, `FairyStockfishEngine`, `EnginePool`) and proofs of
the spec claims about it.  Definitions are translated from the TypeScript
source; behaviour of the external `chess.js` library is modelled where the
source calls into it, and every such model is marked in its doc comment.
-/

namespace Bughouse

/-- The `PieceType` union from `PiecePool.ts`: `'p' | 'n' | 'b' | 'r' | 'q'`. -/
inductive PieceType where
  | p | n | b | r | q
deriving DecidableEq, Repr

/-- The `'w' | 'b'` colour union used throughout the source. -/
inductive Color where
  | w | b
deriving DecidableEq, Repr

/-- `PiecePool` (PiecePool.ts): a map from the five droppable piece types to
non-negative counts.  `reset()` initialises every count to 0. -/
structure PiecePool where
  p : Nat
  n : Nat
  b : Nat
  r : Nat
  q : Nat
deriving DecidableEq, Repr

namespace PiecePool

/-- `new PiecePool()` / `reset()`: all counts zero. -/
def empty : PiecePool := ⟨0, 0, 0, 0, 0⟩

/-- `getCount(type)`. -/
def getCount (pool : PiecePool) (t : PieceType) : Nat :=
  match t with
  | .p => pool.p
  | .n => pool.n
  | .b => pool.b
  | .r => pool.r
  | .q => pool.q

/-- `addPiece(type)`: increment the count for `type`. -/
def addPiece (pool : PiecePool) (t : PieceType) : PiecePool :=
  match t with
  | .p => { pool with p := pool.p + 1 }
  | .n => { pool with n := pool.n + 1 }
  | .b => { pool with b := pool.b + 1 }
  | .r => { pool with r := pool.r + 1 }
  | .q => { pool with q := pool.q + 1 }

/-- `removePiece(type)`: decrement if positive and report success,
otherwise leave the pool unchanged and report failure. -/
def removePiece (pool : PiecePool) (t : PieceType) : PiecePool × Bool :=
  if 0 < pool.getCount t then
    (match t with
      | .p => { pool with p := pool.p - 1 }
      | .n => { pool with n := pool.n - 1 }
      | .b => { pool with b := pool.b - 1 }
      | .r => { pool with r := pool.r - 1 }
      | .q => { pool with q := pool.q - 1 }, true)
  else (pool, false)

end PiecePool

/-- Bot identities (`'Bot 1' | 'Partner' | 'Bot 2'`), identified with their
stalling-state keys `'bot1' | 'partner' | 'bot2'` (the source's
`botNameToKey`/`botKeyToName` are mutually inverse renamings). -/
inductive BotName where
  | bot1 | partner | bot2
deriving DecidableEq, Repr

/-- `getPartnerBotName` (BughouseGame, part_004): Partner's partner is the
human player, who is not a bot, so the function returns `null`; Bot 1 and
Bot 2 are each other's partners. -/
def getPartnerBotName : BotName → Option BotName
  | .partner => none
  | .bot1 => some .bot2
  | .bot2 => some .bot1

/-- `getStallProbability(piece, scenario)` (BughouseGame, part_004): the
per-piece record of per-scenario probabilities, with
`probabilities[piece]?.[scenario] || 0` defaulting to 0 for any scenario
string absent from the record.  Probabilities are exact rationals. -/
def getStallProbability (piece : PieceType) (scenario : String) : ℚ :=
  match piece with
  | .p =>
    if scenario = "forces_mate" then 0.98
    else if scenario = "saves_from_mate" then 0.90
    else if scenario = "lost_to_winning" then 0.60
    else 0
  | .n =>
    if scenario = "forces_mate" then 0.95
    else if scenario = "saves_from_mate" then 0.70
    else if scenario = "lost_to_winning" then 0.50
    else 0
  | .b =>
    if scenario = "forces_mate" then 0.95
    else if scenario = "saves_from_mate" then 0.70
    else if scenario = "lost_to_winning" then 0.50
    else 0
  | .r =>
    if scenario = "forces_mate" then 0.95
    else if scenario = "saves_from_mate" then 0.33
    else if scenario = "lost_to_winning" then 0.0
    else 0
  | .q =>
    if scenario = "forces_mate" then 0.95
    else if scenario = "saves_from_mate" then 0.25
    else if scenario = "lost_to_winning" then 0.0
    else 0

/-- The four clocks reported by `getClockTimes()` (milliseconds). -/
structure ClockTimes where
  playerWhite : ℤ
  playerBlack : ℤ
  partnerWhite : ℤ
  partnerBlack : ℤ
deriving DecidableEq, Repr

/-- `getBotAndDiagonalTimes(botName, times)` (BughouseGame, part_004):
returns the pair `(botTime, diagonalTime)`. -/
def getBotAndDiagonalTimes (botName : BotName) (times : ClockTimes) : ℤ × ℤ :=
  match botName with
  | .bot1 => (times.playerBlack, times.partnerBlack)
  | .partner => (times.partnerBlack, times.playerBlack)
  | .bot2 => (times.partnerWhite, times.playerWhite)

/-- The `upOnTime` computation of `shouldStallForPiece`:
`botTime > diagonalTime` (strict). -/
def upOnTime (botName : BotName) (times : ClockTimes) : Bool :=
  let bd := getBotAndDiagonalTimes botName times
  bd.1 > bd.2

/-- The four seats of the team diamond: the human plays white on the player
board, Bot 1 black on the player board, Bot 2 white on the partner board,
Partner black on the partner board (seat assignment documented at
`getBotAndDiagonalTimes` and enforced by `identifyBot`/`botPlaysThisTurn`). -/
inductive Seat where
  | human | seatBot1 | seatPartner | seatBot2
deriving DecidableEq, Repr

/-- The clock belonging to each seat, per the seat assignment above. -/
def seatClock (s : Seat) (times : ClockTimes) : ℤ :=
  match s with
  | .human => times.playerWhite
  | .seatBot1 => times.playerBlack
  | .seatPartner => times.partnerBlack
  | .seatBot2 => times.partnerWhite

/-- Each bot's own seat. -/
def seatOf : BotName → Seat
  | .bot1 => .seatBot1
  | .partner => .seatPartner
  | .bot2 => .seatBot2

/-- The diagonal of each bot as the spec states it: Bot 1 against Partner,
Partner against Bot 1, Bot 2 against the human player. -/
def diagonalOf : BotName → Seat
  | .bot1 => .seatPartner
  | .partner => .seatBot1
  | .bot2 => .human

/-! ## Engine move parsing (`FairyStockfishEngine`, part_008) -/

/-- JS `String.prototype.split` with a single-character separator,
on the character list of the string. -/
def splitChar (l : List Char) (sep : Char) : List (List Char) :=
  match l with
  | [] => [[]]
  | c :: rest =>
    if c = sep then [] :: splitChar rest sep
    else
      match splitChar rest sep with
      | [] => [[c]]
      | h :: t => (c :: h) :: t

/-- `EngineMove` (IChessEngine): the parsed move object. -/
structure EngineMove where
  fromSq : String
  toSq : String
  promotion : Option String := none
  drop : Option String := none
deriving DecidableEq, Repr

/-- The `{ from: '(none)', to: '(none)' }` object returned for no-move cases. -/
def noneMove : EngineMove :=
  { fromSq := "(none)", toSq := "(none)" }

/-- `parseMove(moveStr)` (FairyStockfishEngine, part_008): empty, `(none)`
and `0000` inputs (and strings shorter than 4 characters) map to the
no-move object; a string containing `@` is a drop `piece@square`; anything
else is `fromto[promotion]`. -/
def parseMove (moveStr : String) : EngineMove :=
  if moveStr = "" ∨ moveStr = "(none)" ∨ moveStr = "0000" then noneMove
  else if moveStr.length < 4 then noneMove
  else if moveStr.data.contains '@' then
    let parts := splitChar moveStr.data '@'
    { fromSq := "", toSq := String.mk (parts.getD 1 []),
      drop := some (String.mk (parts.getD 0 [])) }
  else
    { fromSq := String.mk (moveStr.data.take 2),
      toSq := String.mk ((moveStr.data.drop 2).take 2),
      promotion :=
        if 4 < moveStr.length then some (String.mk ((moveStr.data.drop 4).take 1))
        else none }

/-! ## True-checkmate verification (`BughouseGame.isTrueCheckmate`, part_004) -/

/-- Outcome of the engine interaction inside `isTrueCheckmate`'s `try` block:
either some engine call threw, or `getBestMove(500)` resolved with the
`bestmove` token `s` (which the transport feeds through `parseMove`). -/
inductive EngineProbe where
  | err
  | best (s : String)
deriving DecidableEq, Repr

/-- Observable outcome of one `isTrueCheckmate` call: the returned boolean,
the final holdings of both colours, and — when the engine was queried —
the mated side's holdings at query time and the movetime used. -/
structure MateCheck where
  result : Bool
  whitePool : PiecePool
  blackPool : PiecePool
  probePool : Option PiecePool
  probeMovetime : Option Nat
deriving DecidableEq, Repr

/-- `isTrueCheckmate(board, engine)` (BughouseGame, part_004): if the board
is not in standard checkmate, return false at once.  Otherwise add one
queen to the checkmated side's pool (the side to move), query the engine
with `getBestMove(500)`, remove the queen again, and report true exactly
when the returned move is the no-move object; on an engine error the queen
is removed in the `catch` block and false is returned.  (`!move` in the
source is never taken: `parseMove` always returns an object.) -/
def isTrueCheckmate (isCheckmate : Bool) (turn : Color)
    (whitePool blackPool : PiecePool) (probe : EngineProbe) : MateCheck :=
  if isCheckmate = false then
    { result := false, whitePool := whitePool, blackPool := blackPool,
      probePool := none, probeMovetime := none }
  else
    let pool0 := if turn = .w then whitePool else blackPool
    let pool1 := pool0.addPiece .q
    match probe with
    | .err =>
      let pool2 := (pool1.removePiece .q).1
      { result := false,
        whitePool := if turn = .w then pool2 else whitePool,
        blackPool := if turn = .w then blackPool else pool2,
        probePool := none, probeMovetime := none }
    | .best s =>
      let mv := parseMove s
      let pool2 := (pool1.removePiece .q).1
      { result :=
          if mv.fromSq = "(none)" ∨ mv.toSq = "(none)" ∨ mv.fromSq = "0000"
          then true else false,
        whitePool := if turn = .w then pool2 else whitePool,
        blackPool := if turn = .w then blackPool else pool2,
        probePool := some pool1, probeMovetime := some 500 }

/-! ## Engine pool (`EnginePool.ts`, server) -/

/-- The mutable fields of `EnginePool`: engines and waiters are named by
numeric identities; `cleanupTimerActive` models the `setInterval` reaper
handle being live. -/
structure EnginePoolState where
  availableEngines : List Nat
  busyEngines : List Nat
  waitingQueue : List Nat
  cleanupTimerActive : Bool
deriving DecidableEq, Repr

/-- Externally observable events of a pool operation: an engine's
`shutdown()` being invoked, or a waiter's pending `acquireEngine` promise
being settled (resolved with an engine, or rejected with an error). -/
inductive PoolEvent where
  | engineShutdown (e : Nat)
  | waiterResolved (w : Nat) (e : Nat)
  | waiterRejected (w : Nat)
deriving DecidableEq, Repr

/-- `releaseEngine(engine)` (EnginePool.ts): remove from the busy set; if a
waiter is queued, hand the engine straight to the head of the queue
(resolving its promise), else append it to the available list. -/
def releaseEngine (s : EnginePoolState) (e : Nat) : EnginePoolState × List PoolEvent :=
  let busy := s.busyEngines.erase e
  match s.waitingQueue with
  | w :: rest =>
    ({ s with busyEngines := busy ++ [e], waitingQueue := rest },
      [PoolEvent.waiterResolved w e])
  | [] =>
    ({ s with
        busyEngines := busy
        availableEngines := s.availableEngines ++ [e] }, [])

/-- `shutdown()` (EnginePool.ts): clear the reaper interval, call
`shutdown()` on every engine (available then busy), then reset
`availableEngines`, `busyEngines` and `waitingQueue` to empty.  The queued
waiter callbacks are discarded without being invoked, so no
`waiterResolved`/`waiterRejected` event is produced for them. -/
def poolShutdown (s : EnginePoolState) : EnginePoolState × List PoolEvent :=
  ({ availableEngines := [], busyEngines := [], waitingQueue := [],
     cleanupTimerActive := false },
   (s.availableEngines ++ s.busyEngines).map PoolEvent.engineShutdown)

/-! ## The `Board` class (Board.ts, part_005) and its `piecePool` accesses -/

/-- JS runtime errors relevant to this development. -/
inductive JsError where
  | typeError
deriving DecidableEq, Repr

/-- The `Move` record interface of Board.ts. -/
structure MoveRec where
  fromSq : String
  toSq : String
  piece : String
  captured : Option Char := none
  promotion : Option String := none
  drop : Option PieceType := none
  dropColor : Option Color := none
deriving DecidableEq, Repr

/-- `BoardSide` (`'player' | 'partner'`). -/
inductive BoardSide where
  | player | partner
deriving DecidableEq, Repr

/-- The declared fields of the `Board` class (Board.ts): `fen`,
`moveHistory`, `whitePiecePool`, `blackPiecePool`, `side`, `playerColor`
(the wrapped chess.js instance is not part of the data model here). -/
structure BoardFields where
  fen : String
  moveHistory : List MoveRec
  whitePiecePool : PiecePool
  blackPiecePool : PiecePool
  side : BoardSide
  playerColor : Color
deriving DecidableEq, Repr

/-- The default starting FEN of the `Board` constructor and of `reset()`. -/
def startingFen : String :=
  "rnbqkbnr/pppppppp/8/8/8/8/PPPPPPPP/RNBQKBNR w KQkq - 0 1"

/-- The JS property access `this.piecePool` on a `Board` instance: the class
declares only `whitePiecePool` and `blackPiecePool`, and no statement in
the class (or elsewhere in the repository) ever assigns a `piecePool`
property, so the access evaluates to `undefined` on every instance. -/
def boardPiecePoolProp (_ : BoardFields) : Option PiecePool := none

/-- Calling `.removePiece(t)` on the value of a property lookup: a method
call on `undefined` throws a `TypeError`. -/
def jsCallRemovePiece (target : Option PiecePool) (t : PieceType) :
    Except JsError (PiecePool × Bool) :=
  match target with
  | none => .error .typeError
  | some pool => .ok (pool.removePiece t)

/-- `Board.dropPiece(pieceType, _square)` (Board.ts):
`return this.piecePool.removePiece(pieceType)`. -/
def boardDropPiece (b : BoardFields) (pieceType : PieceType) (_square : String) :
    Except JsError Bool :=
  (jsCallRemovePiece (boardPiecePoolProp b) pieceType).map (fun x => x.2)

/-- `Board.reset()` (Board.ts): reassigns `fen` and `moveHistory`, then
calls `this.piecePool.reset()`; the method call on `undefined` throws, so
the method never returns normally (the first two field writes have already
happened when the `TypeError` is raised). -/
def boardReset (b : BoardFields) : Except JsError BoardFields :=
  let b1 := { b with fen := startingFen, moveHistory := [] }
  match boardPiecePoolProp b1 with
  | none => .error .typeError
  | some _ => .ok b1

/-- `Board.clone()` (Board.ts): builds a fresh board, copies the history,
then evaluates `this.piecePool.clone()`, which throws on `undefined`. -/
def boardClone (b : BoardFields) : Except JsError BoardFields :=
  let copy : BoardFields :=
    { fen := b.fen, moveHistory := b.moveHistory,
      whitePiecePool := .empty, blackPiecePool := .empty,
      side := b.side, playerColor := b.playerColor }
  match boardPiecePoolProp b with
  | none => .error .typeError
  | some _ => .ok copy

/-! ## FEN string helpers

The source manipulates FEN strings character by character (`split`,
`for..of` walks with a running file index).  The walks below are the
direct translations, operating on the strings' character lists. -/

/-- Join character lists with a separator (JS `Array.prototype.join`). -/
def joinChar (ls : List (List Char)) (sep : Char) : List Char :=
  match ls with
  | [] => []
  | [l] => l
  | l :: rest => l ++ sep :: joinChar rest sep

/-- Decimal digits of a natural number (JS `Number.prototype.toString`). -/
def natChars (num : Nat) : List Char :=
  Nat.toDigits 10 num

/-- Parse a decimal digit string (JS `parseInt` on the all-digit strings
occurring in well-formed FEN fields; 0 for garbage input, on which the
source would produce `NaN` in fields none of our definitions read). -/
def parseNatChars (l : List Char) : Nat :=
  l.foldl (fun acc c => if '0' ≤ c ∧ c ≤ '9' then acc * 10 + (c.toNat - 48) else acc) 0

/-- `square.charCodeAt(0) - 'a'.charCodeAt(0)`: the 0-based file. -/
def fileOfSquare (square : String) : Nat :=
  (square.data.headD 'a').toNat - 97

/-- `parseInt(square[1])`: the rank digit of a square name, `none` when the
second character is not a digit (where JS yields `NaN` and the subsequent
rank-array indexing throws or falls through, per call site). -/
def rankDigit (square : String) : Option Nat :=
  match square.data.drop 1 with
  | c :: _ => if '0' ≤ c ∧ c ≤ '9' then some (c.toNat - 48) else none
  | [] => none

/-- Is a FEN character a digit run `1`–`8` (`char >= '1' && char <= '8'`)? -/
def isFenDigit (c : Char) : Bool :=
  '1' ≤ c ∧ c ≤ '8'

/-- The value of a FEN digit character. -/
def fenDigitVal (c : Char) : Nat :=
  c.toNat - 48

/-- The split fields of a FEN string (`fen.split(' ')`). -/
def fenFields (fen : String) : List (List Char) :=
  splitChar fen.data ' '

/-- The rank rows of a FEN string, top (rank 8) first (`board.split('/')`). -/
def fenRows (fen : String) : List (List Char) :=
  splitChar ((fenFields fen).getD 0 []) '/'

/-- The rank-string walk of `getPieceAt` (BughouseGame, part_004): skip
digit runs, return the piece character whose running file index matches. -/
def pieceAtWalk (chars : List Char) (file : Nat) (fileIndex : Nat) : Option Char :=
  match chars with
  | [] => none
  | c :: rest =>
    if isFenDigit c then pieceAtWalk rest file (fileIndex + fenDigitVal c)
    else if fileIndex = file then some c
    else pieceAtWalk rest file (fileIndex + 1)

/-- `getPieceAt(board, square)` (BughouseGame, part_004): parse the FEN
position, walk the addressed rank row, return the piece character or
nothing.  Out-of-range ranks return nothing (`rank < 0 || rank >= 8`). -/
def getPieceAt (fen : String) (square : String) : Option Char :=
  match rankDigit square with
  | none => none
  | some d =>
    if 1 ≤ d ∧ d ≤ 8 then
      pieceAtWalk ((fenRows fen).getD (8 - d) []) (fileOfSquare square) 0
    else none

/-- The insert/replace rank walk shared by `placePieceOnFEN` (Board.ts) and
the target-rank update of `makeManualMove`: split a digit run covering the
file and put the piece characters there, or replace the piece character at
the file; `piece` is empty or a single character (the JS `movingPiece`
string). -/
def placeToWalk (chars : List Char) (file : Nat) (piece : List Char)
    (currentFile : Nat) : List Char :=
  match chars with
  | [] => []
  | c :: rest =>
    if isFenDigit c then
      let d := fenDigitVal c
      if currentFile ≤ file ∧ file < currentFile + d then
        let before := file - currentFile
        let after := d - before - 1
        (if 0 < before then natChars before else [])
          ++ piece
          ++ (if 0 < after then natChars after else [])
          ++ placeToWalk rest file piece (currentFile + d)
      else c :: placeToWalk rest file piece (currentFile + d)
    else
      if currentFile = file then piece ++ placeToWalk rest file piece (currentFile + 1)
      else c :: placeToWalk rest file piece (currentFile + 1)

/-- The source-rank walk of `makeManualMove` (Board.ts): empty the from
square (writing `'1'`), extract the moving piece character ([] when the
from square lay inside an empty run, like the JS empty string). -/
def extractWalk (chars : List Char) (file : Nat) (currentFile : Nat) :
    List Char × List Char :=
  match chars with
  | [] => ([], [])
  | c :: rest =>
    if isFenDigit c then
      let d := fenDigitVal c
      if currentFile ≤ file ∧ file < currentFile + d then
        let before := file - currentFile
        let after := d - before - 1
        let rec0 := extractWalk rest file (currentFile + d)
        ((if 0 < before then natChars before else [])
            ++ ['1']
            ++ (if 0 < after then natChars after else [])
            ++ rec0.1, rec0.2)
      else
        let rec0 := extractWalk rest file (currentFile + d)
        (c :: rec0.1, rec0.2)
    else
      if currentFile = file then
        let rec0 := extractWalk rest file (currentFile + 1)
        ('1' :: rec0.1, [c])
      else
        let rec0 := extractWalk rest file (currentFile + 1)
        (c :: rec0.1, rec0.2)

/-- `consolidateEmptySquares(rank)` (Board.ts): merge adjacent digit runs. -/
def consolidateWalk (chars : List Char) (emptyCount : Nat) : List Char :=
  match chars with
  | [] => if 0 < emptyCount then natChars emptyCount else []
  | c :: rest =>
    if isFenDigit c then consolidateWalk rest (emptyCount + fenDigitVal c)
    else
      (if 0 < emptyCount then natChars emptyCount else []) ++ c :: consolidateWalk rest 0

/-- `consolidateEmptySquares` entry point. -/
def consolidateEmptySquares (chars : List Char) : List Char :=
  consolidateWalk chars 0

/-- `placePieceOnFEN(fen, square, piece)` (Board.ts): insert the piece into
the addressed rank row and toggle the side to move.  A square whose rank
digit fails to parse leaves the FEN unchanged (at the call site the JS
exception is swallowed by `addMove`'s `try`). -/
def placePieceOnFEN (fen : String) (square : String) (piece : Char) : String :=
  match rankDigit square with
  | none => fen
  | some d =>
    let parts := fenFields fen
    let file := fileOfSquare square
    let rank := 8 - d
    let ranks := splitChar (parts.getD 0 []) '/'
    let newRank := placeToWalk (ranks.getD rank []) file [piece] 0
    let parts1 := parts.set 0 (joinChar (ranks.set rank newRank) '/')
    let parts2 := parts1.set 1 (if parts1.getD 1 [] = ['w'] then ['b'] else ['w'])
    String.mk (joinChar parts2 ' ')

/-- `makeManualMove(fen, from, to, captured?, promotion?)` (Board.ts): move
the piece from the source square to the target square on the FEN string,
toggle the side to move, clear en passant, update the halfmove and
fullmove counters.  `none` models the JS exception on unparsable squares
(caught by `addMove`). -/
def makeManualMove (fen : String) (fromSq toSq : String) (captured : Option Char)
    (promotion : Option String) : Option String :=
  match rankDigit fromSq, rankDigit toSq with
  | some df, some dt =>
    let parts := fenFields fen
    let fromFile := fileOfSquare fromSq
    let toFile := fileOfSquare toSq
    let fromRank := 8 - df
    let toRank := 8 - dt
    let ranks := splitChar (parts.getD 0 []) '/'
    let extracted := extractWalk (ranks.getD fromRank []) fromFile 0
    let turn := parts.getD 1 []
    let movingPiece :=
      match promotion with
      | some pr =>
        if turn = ['w'] then pr.data.map Char.toUpper else pr.data.map Char.toLower
      | none => extracted.2
    let ranks1 := ranks.set fromRank (consolidateEmptySquares extracted.1)
    let newToRank := placeToWalk (ranks1.getD toRank []) toFile movingPiece 0
    let ranks2 := ranks1.set toRank (consolidateEmptySquares newToRank)
    let parts1 := parts.set 0 (joinChar ranks2 '/')
    let newTurn := if parts1.getD 1 [] = ['w'] then ['b'] else ['w']
    let parts2 := parts1.set 1 newTurn
    let parts3 := parts2.set 3 ['-']
    let halfmove := parseNatChars (parts3.getD 4 [])
    let parts4 := parts3.set 4
      (if captured.isSome ∨ promotion.isSome then ['0'] else natChars (halfmove + 1))
    let parts5 :=
      if newTurn = ['w'] then parts4.set 5 (natChars (parseNatChars (parts4.getD 5 []) + 1))
      else parts4
    some (String.mk (joinChar parts5 ' '))
  | _, _ => none

/-- Modelled from the chess.js library composed with the source's manual
fallback: `Board.addMove` first tries `chess.move({from,to,promotion})`
and falls back to `makeManualMove` when chess.js rejects the position or
move.  For the plain standard moves evaluated in this development (no
castling, no en-passant capture), the chess.js update and `makeManualMove`
agree on the piece placement and side-to-move fields — the only FEN fields
any definition here reads — so both paths are modelled by
`makeManualMove`. -/
def chessJsMoveOrManual (fen : String) (fromSq toSq : String)
    (captured : Option Char) (promotion : Option String) : Option String :=
  makeManualMove fen fromSq toSq captured promotion

/-- The lowercase FEN letter of a piece type. -/
def pieceLower : PieceType → Char
  | .p => 'p'
  | .n => 'n'
  | .b => 'b'
  | .r => 'r'
  | .q => 'q'

/-- The piece type denoted by a lowercase FEN letter (`as PieceType` casts
in the source; characters outside the five droppable types — which a legal
game never produces — have no `PieceType` value). -/
def pieceTypeOfChar (c : Char) : Option PieceType :=
  if c = 'p' then some .p
  else if c = 'n' then some .n
  else if c = 'b' then some .b
  else if c = 'r' then some .r
  else if c = 'q' then some .q
  else none

/-- `captured === captured.toUpperCase()`: the captured piece character is
white. -/
def isWhitePieceChar (c : Char) : Bool :=
  c = c.toUpper

/-- `getCurrentTurn()` (Board.ts): the second FEN field. -/
def getCurrentTurnChars (b : BoardFields) : List Char :=
  (fenFields b.fen).getD 1 []

/-- The FEN character of a colour. -/
def colorChar : Color → Char
  | .w => 'w'
  | .b => 'b'

/-- `isPlayerTurn()` (Board.ts): current turn equals the declared player
colour of the board. -/
def isPlayerTurn (b : BoardFields) : Bool :=
  getCurrentTurnChars b = [colorChar b.playerColor]

/-- `Board.addMove(move)` (Board.ts): drops place the dropped piece on the
FEN (cased by `dropColor`); normal moves go through chess.js with the
manual fallback; on an exception the FEN is left unchanged; in every case
the move is pushed onto the history. -/
def boardAddMove (b : BoardFields) (m : MoveRec) : BoardFields :=
  let fen' :=
    match m.drop with
    | some t =>
      let pieceCh := if m.dropColor = some .w then (pieceLower t).toUpper else pieceLower t
      placePieceOnFEN b.fen m.toSq pieceCh
    | none =>
      match chessJsMoveOrManual b.fen m.fromSq m.toSq m.captured m.promotion with
      | some f => f
      | none => b.fen
  { b with fen := fen', moveHistory := b.moveHistory ++ [m] }

/-! ## Drop legality (`BughouseGame.isDropLegal`, part_004) and the
chess.js validation/check model it relies on -/

/-- The occupancy scan of `isDropLegal`: walk the rank string with a
running file index; a digit run covering the file breaks out (the square
is empty — `true`); a piece character at the file returns occupied
(`false`); falling off the end of the loop also continues validation
(`true`). -/
def rankScanEmpty (chars : List Char) (file : Nat) (currentFile : Nat) : Bool :=
  match chars with
  | [] => true
  | c :: rest =>
    if isFenDigit c then
      let d := fenDigitVal c
      if currentFile ≤ file ∧ file < currentFile + d then true
      else rankScanEmpty rest file (currentFile + d)
    else
      if currentFile = file then false
      else rankScanEmpty rest file (currentFile + 1)

/-- The insertion walk of `createDropFEN` (part_004): split the first
digit run covering the file around the dropped piece (the `inserted` flag
prevents a second insertion); all other characters are copied unchanged
(occupied squares are not replaced — the occupancy scan has already
rejected them). -/
def createDropWalk (chars : List Char) (file : Nat) (piece : Char)
    (currentFile : Nat) (inserted : Bool) : List Char :=
  match chars with
  | [] => []
  | c :: rest =>
    if isFenDigit c then
      let d := fenDigitVal c
      if inserted = false ∧ currentFile ≤ file ∧ file < currentFile + d then
        let before := file - currentFile
        let after := d - before - 1
        (if 0 < before then natChars before else [])
          ++ piece :: (if 0 < after then natChars after else [])
          ++ createDropWalk rest file piece (currentFile + d) true
      else c :: createDropWalk rest file piece (currentFile + d) inserted
    else c :: createDropWalk rest file piece (currentFile + 1) inserted

/-- The FEN character of the dropped piece
(`playerColor === 'w' ? pieceType.toUpperCase() : pieceType.toLowerCase()`). -/
def dropPieceChar (pieceType : PieceType) (playerColor : Color) : Char :=
  if playerColor = .w then (pieceLower pieceType).toUpper else pieceLower pieceType

/-- `createDropFEN(fen, square, pieceType, playerColor)` (part_004): insert
the dropped piece into the addressed rank row of the position field; all
other FEN fields (side to move included) are left unchanged. -/
def createDropFEN (fen square : String) (pieceType : PieceType)
    (playerColor : Color) : String :=
  match rankDigit square with
  | none => fen
  | some d =>
    let parts := fenFields fen
    let file := fileOfSquare square
    let rank := 8 - d
    let ranks := splitChar (parts.getD 0 []) '/'
    let newRank := createDropWalk (ranks.getD rank []) file
      (dropPieceChar pieceType playerColor) 0 false
    String.mk (joinChar (parts.set 0 (joinChar (ranks.set rank newRank) '/')) ' ')

/-- A chess.js position symbol (`/^[prnbqkPRNBQK]$/`). -/
def isPieceSymbol (c : Char) : Bool :=
  c = 'p' ∨ c = 'r' ∨ c = 'n' ∨ c = 'b' ∨ c = 'q' ∨ c = 'k'
  ∨ c = 'P' ∨ c = 'R' ∨ c = 'N' ∨ c = 'B' ∨ c = 'Q' ∨ c = 'K'

/-- Expand a FEN rank row into its board cells: digit runs become empty
cells, piece symbols occupy one cell; any other character is invalid. -/
def expandRow : List Char → Option (List (Option Char))
  | [] => some []
  | c :: rest =>
    match expandRow rest with
    | none => none
    | some cells =>
      if isFenDigit c then some (List.replicate (fenDigitVal c) none ++ cells)
      else if isPieceSymbol c then some (some c :: cells)
      else none

/-- The number of board cells a rank row denotes. -/
def rowWidth : List Char → Nat
  | [] => 0
  | c :: rest => (if isFenDigit c then fenDigitVal c else 1) + rowWidth rest

/-- chess.js's "no consecutive numbers" row criterion. -/
def noConsecutiveDigits : List Char → Bool
  | [] => true
  | [_] => true
  | a :: b :: rest => (¬ (isFenDigit a ∧ isFenDigit b)) && noConsecutiveDigits (b :: rest)

/-- A valid chess.js rank row: expands to exactly 8 cells. -/
def validRowModel (row : List Char) : Bool :=
  match expandRow row with
  | some cells => cells.length = 8
  | none => false

/-- A non-empty all-digit numeric field. -/
def isDigitList (l : List Char) : Bool :=
  ¬ (l = []) && l.all (fun c => '0' ≤ c ∧ c ≤ '9')

/-- The en-passant field criterion (`^(-|[abcdefgh][36])$`). -/
def epFieldOk (l : List Char) : Bool :=
  decide (l = ['-'])
  || (match l with
      | [f, r] => decide (('a' ≤ f ∧ f ≤ 'h') ∧ (r = '3' ∨ r = '6'))
      | _ => false)

/-- The castling field criterion (no character outside `kKqQ-`). -/
def castlingFieldOk (l : List Char) : Bool :=
  l.all (fun c => c = 'k' ∨ c = 'K' ∨ c = 'q' ∨ c = 'Q' ∨ c = '-')

/-- The position-field criteria of chess.js `validateFen`: 8 rows, each
expanding to 8 cells with no consecutive digit runs, exactly one king per
colour, and no pawn on the top or bottom row (ranks 8 and 1). -/
def validPositionModel (posChars : List Char) : Bool :=
  let rows := splitChar posChars '/'
  rows.length = 8
  && rows.all (fun r => validRowModel r && noConsecutiveDigits r)
  && posChars.count 'K' = 1
  && posChars.count 'k' = 1
  && ¬ ((rows.getD 0 []).contains 'P' ∨ (rows.getD 0 []).contains 'p'
      ∨ (rows.getD 7 []).contains 'P' ∨ (rows.getD 7 []).contains 'p')

/-- Modelled from the chess.js library (`validateFen`, called by `load`):
six space-separated fields, positive fullmove number, non-negative
halfmove clock, valid en-passant, side-to-move and castling fields, and a
valid position per `validPositionModel`.  `Chess.load` throws exactly when
this returns `false`. -/
def validateFenModel (fen : String) : Bool :=
  let tokens := fenFields fen
  tokens.length = 6
  && isDigitList (tokens.getD 5 []) && 1 ≤ parseNatChars (tokens.getD 5 [])
  && isDigitList (tokens.getD 4 [])
  && epFieldOk (tokens.getD 3 [])
  && (tokens.getD 1 [] = ['w'] ∨ tokens.getD 1 [] = ['b'])
  && castlingFieldOk (tokens.getD 2 [])
  && validPositionModel (tokens.getD 0 [])

/-- Parse all rank rows of a position field into a cell grid (row 0 is
rank 8). -/
def parseGrid (posChars : List Char) : Option (List (List (Option Char))) :=
  let rows := splitChar posChars '/'
  rows.foldr
    (fun row acc =>
      match expandRow row, acc with
      | some cells, some g => some (cells :: g)
      | _, _ => none)
    (some [])

/-- The cell of a grid at integer coordinates, `none` off the board. -/
def cellAt (grid : List (List (Option Char))) (r c : ℤ) : Option Char :=
  if 0 ≤ r ∧ r < 8 ∧ 0 ≤ c ∧ c < 8 then
    ((grid.getD r.toNat []).getD c.toNat none)
  else none

/-- First piece encountered from a square along a direction (at most 8
steps, the board diameter). -/
def firstPieceGo (grid : List (List (Option Char))) (dr dc : ℤ) :
    Nat → ℤ → ℤ → Option Char
  | 0, _, _ => none
  | fuel + 1, r, c =>
    if 0 ≤ r ∧ r < 8 ∧ 0 ≤ c ∧ c < 8 then
      match cellAt grid r c with
      | some p => some p
      | none => firstPieceGo grid dr dc fuel (r + dr) (c + dc)
    else none

/-- First piece along a ray starting one step away from `(r, c)`. -/
def firstPiece (grid : List (List (Option Char))) (r c dr dc : ℤ) : Option Char :=
  firstPieceGo grid dr dc 8 (r + dr) (c + dc)

/-- Modelled from the chess.js library: is the square `(r, c)` attacked by
the given colour — by a pawn one row toward that colour's home, a knight
an L away, a king one step away, a rook or queen along a clear rank or
file, or a bishop or queen along a clear diagonal? -/
def squareAttacked (grid : List (List (Option Char))) (r c : ℤ)
    (byWhite : Bool) : Bool :=
  let pawnRow := if byWhite then r + 1 else r - 1
  let pawnCh := if byWhite then 'P' else 'p'
  let knightCh := if byWhite then 'N' else 'n'
  let kingCh := if byWhite then 'K' else 'k'
  let rookCh := if byWhite then 'R' else 'r'
  let bishopCh := if byWhite then 'B' else 'b'
  let queenCh := if byWhite then 'Q' else 'q'
  (cellAt grid pawnRow (c - 1) = some pawnCh
    ∨ cellAt grid pawnRow (c + 1) = some pawnCh)
  || ([(1, 2), (2, 1), (2, -1), (1, -2), (-1, -2), (-2, -1), (-2, 1), (-1, 2)].any
      (fun dd => cellAt grid (r + dd.1) (c + dd.2) = some knightCh))
  || ([(0, 1), (1, 1), (1, 0), (1, -1), (0, -1), (-1, -1), (-1, 0), (-1, 1)].any
      (fun dd => cellAt grid (r + dd.1) (c + dd.2) = some kingCh))
  || ([((0 : ℤ), (1 : ℤ)), (1, 0), (0, -1), (-1, 0)].any
      (fun dd =>
        firstPiece grid r c dd.1 dd.2 = some rookCh
        ∨ firstPiece grid r c dd.1 dd.2 = some queenCh))
  || ([((1 : ℤ), (1 : ℤ)), (1, -1), (-1, -1), (-1, 1)].any
      (fun dd =>
        firstPiece grid r c dd.1 dd.2 = some bishopCh
        ∨ firstPiece grid r c dd.1 dd.2 = some queenCh))

/-- Find a piece character in a grid row (file index of first match). -/
def findInRow (row : List (Option Char)) (target : Char) (c : Nat) : Option Nat :=
  match row with
  | [] => none
  | cell :: rest =>
    if cell = some target then some c else findInRow rest target (c + 1)

/-- Find a piece character in a grid (row-major first match). -/
def findInGrid (grid : List (List (Option Char))) (target : Char) (r : Nat) :
    Option (Nat × Nat) :=
  match grid with
  | [] => none
  | row :: rest =>
    match findInRow row target 0 with
    | some c => some (r, c)
    | none => findInGrid rest target (r + 1)

/-- Modelled from the chess.js library: is the given colour's king in
check in the grid? -/
def kingAttacked (grid : List (List (Option Char))) (white : Bool) : Bool :=
  match findInGrid grid (if white then 'K' else 'k') 0 with
  | none => false
  | some rc => squareAttacked grid (rc.1 : ℤ) (rc.2 : ℤ) (!white)

/-- Is the given colour's king in check in a FEN's position field? -/
def kingInCheckFen (fen : String) (c : Color) : Bool :=
  match parseGrid ((fenFields fen).getD 0 []) with
  | none => false
  | some grid => kingAttacked grid (c = .w)

/-- Modelled from the chess.js library: `isCheck()` — the side to move
(second FEN field) is in check. -/
def chessJsIsCheckModel (fen : String) : Bool :=
  kingInCheckFen fen (if (fenFields fen).getD 1 [] = ['w'] then .w else .b)

/-- Modelled from the chess.js library: `new Chess(); chess.load(fen);
chess.isCheck()` — `none` when `load` throws (invalid FEN), otherwise the
check status of the side to move. -/
def chessJsLoadIsCheck (fen : String) : Option Bool :=
  if validateFenModel fen then some (chessJsIsCheckModel fen) else none

/-- `isDropLegal(fen, square, pieceType, playerColor)` (part_004): reject
when the target square is occupied (occupancy scan); otherwise build the
test FEN with the piece dropped and accept exactly when chess.js loads it
successfully and reports no check against the side to move.  The `false`
fallbacks model the `catch` blocks (unparsable square rank, missing rank
row). -/
def isDropLegal (fen square : String) (pieceType : PieceType)
    (playerColor : Color) : Bool :=
  let parts := fenFields fen
  let board := parts.getD 0 []
  let file := fileOfSquare square
  match rankDigit square with
  | none => false
  | some d =>
    let ranks := splitChar board '/'
    if 1 ≤ d ∧ d ≤ 8 ∧ 8 - d < ranks.length then
      let rankStr := ranks.getD (8 - d) []
      if rankScanEmpty rankStr file 0 = false then false
      else
        match chessJsLoadIsCheck (createDropFEN fen square pieceType playerColor) with
        | none => false
        | some isCheckAfter => if isCheckAfter then false else true
    else false

/-! ## The `BughouseGame` state machine (part_004) -/

/-- `GameStatus` (part_004). -/
inductive GameStatus where
  | notStarted | inProgress | playerWon | playerLost
  | partnerWon | partnerLost | draw | finished
deriving DecidableEq, Repr

/-- One entry of `stallingState`: `{ piece, reason, playerInduced? }`
(`playerInduced` is optional in the source; an absent property is falsy,
modelled as `false`). -/
structure StallRecord where
  piece : PieceType
  reason : String
  playerInduced : Bool := false
deriving DecidableEq, Repr

/-- One entry of `partnerRequests`: `{ piece, reason, requestedBy }`. -/
structure PartnerRequest where
  piece : PieceType
  reason : String
  requestedBy : String
deriving DecidableEq, Repr

/-- A chat emission (`sendChatMessage(sender, message)`). -/
structure Chat where
  sender : String
  message : String
deriving DecidableEq, Repr

/-- The engine handles held by `BughouseGame` (`engines.player`,
`engines.partner1`, `engines.partner2`). -/
inductive EngineId where
  | player | partner1 | partner2
deriving DecidableEq, Repr

/-- The mutable state of `BughouseGame` relevant to the claims: the two
boards, the game status, the stalling and partner-request records, the
down-time message flags, the forced-to-go latch, and the last processed
move counts of the piece-flow coordinator. -/
structure GameState where
  playerBoard : BoardFields
  partnerBoard : BoardFields
  status : GameStatus
  stallingBot1 : Option StallRecord := none
  stallingPartner : Option StallRecord := none
  stallingBot2 : Option StallRecord := none
  requestBot1 : Option PartnerRequest := none
  requestPartner : Option PartnerRequest := none
  requestBot2 : Option PartnerRequest := none
  downBot1 : Bool := false
  downPartner : Bool := false
  downBot2 : Bool := false
  partnerForcedToGo : Bool := false
  lastPlayerMoveCount : Nat := 0
  lastPartnerMoveCount : Nat := 0
deriving DecidableEq, Repr

/-- `this.stallingState[key]`. -/
def stallingOf (s : GameState) : BotName → Option StallRecord
  | .bot1 => s.stallingBot1
  | .partner => s.stallingPartner
  | .bot2 => s.stallingBot2

/-- Assignment to `this.stallingState[key]` (or `delete`). -/
def setStalling (s : GameState) (k : BotName) (v : Option StallRecord) : GameState :=
  match k with
  | .bot1 => { s with stallingBot1 := v }
  | .partner => { s with stallingPartner := v }
  | .bot2 => { s with stallingBot2 := v }

/-- `this.partnerRequests[key]`. -/
def requestOf (s : GameState) : BotName → Option PartnerRequest
  | .bot1 => s.requestBot1
  | .partner => s.requestPartner
  | .bot2 => s.requestBot2

/-- Assignment to `this.partnerRequests[key]` (or `delete`, as in
`clearPartnerRequest`). -/
def setRequest (s : GameState) (k : BotName) (v : Option PartnerRequest) : GameState :=
  match k with
  | .bot1 => { s with requestBot1 := v }
  | .partner => { s with requestPartner := v }
  | .bot2 => { s with requestBot2 := v }

/-- `this.downTimeMessageSent[key]`. -/
def downFlagOf (s : GameState) : BotName → Bool
  | .bot1 => s.downBot1
  | .partner => s.downPartner
  | .bot2 => s.downBot2

/-- Assignment to `this.downTimeMessageSent[key]`. -/
def setDownFlag (s : GameState) (k : BotName) (v : Bool) : GameState :=
  match k with
  | .bot1 => { s with downBot1 := v }
  | .partner => { s with downPartner := v }
  | .bot2 => { s with downBot2 := v }

/-- The chat display name of a bot. -/
def botDisplay : BotName → String
  | .bot1 => "Bot 1"
  | .partner => "Partner"
  | .bot2 => "Bot 2"

/-- The stalling-state key string of a bot (`botNameToKey`). -/
def botKeyStr : BotName → String
  | .bot1 => "bot1"
  | .partner => "partner"
  | .bot2 => "bot2"

/-- The board a game-state board-side selector denotes. -/
def boardOf (s : GameState) : BoardSide → BoardFields
  | .player => s.playerBoard
  | .partner => s.partnerBoard

/-- Replace the board denoted by a side selector. -/
def setBoard (s : GameState) (bid : BoardSide) (b : BoardFields) : GameState :=
  match bid with
  | .player => { s with playerBoard := b }
  | .partner => { s with partnerBoard := b }

/-- `identifyBot(board, engine)` (part_004): on the player board the moving
engine is Bot 1; on the partner board `partner1` is Bot 2 (white) and
`partner2` is Partner (black). -/
def identifyBot (bid : BoardSide) (eid : EngineId) : BotName :=
  match bid with
  | .player => .bot1
  | .partner => if eid = .partner1 then .bot2 else .partner

/-- The board and engine each bot moves with (the board/engine selection
blocks of `executeMoveOnBoard` and `checkTimeBasedStallAbandonment`). -/
def botBoardEngine : BotName → BoardSide × EngineId
  | .bot1 => (.player, .player)
  | .bot2 => (.partner, .partner1)
  | .partner => (.partner, .partner2)

/-- The `botPlaysThisTurn` test: Bot 1 and Partner play black, Bot 2 plays
white, compared against the current turn of the bot's board. -/
def botPlaysThisTurn (k : BotName) (turnChars : List Char) : Bool :=
  match k with
  | .bot1 => turnChars = ['b']
  | .partner => turnChars = ['b']
  | .bot2 => turnChars = ['w']

/-- `piecesFulfillRequest(requestedPiece, capturedPiece)` (part_004): exact
matches always fulfill; a pawn request is also fulfilled by bishop or
queen, bishop and rook requests also by queen; knight and queen requests
only exactly. -/
def piecesFulfillRequest (requestedPiece capturedPiece : PieceType) : Bool :=
  if requestedPiece = capturedPiece then true
  else
    match requestedPiece with
    | .p => capturedPiece = .b ∨ capturedPiece = .q
    | .n => false
    | .b => capturedPiece = .q
    | .r => capturedPiece = .q
    | .q => false

/-- `setPartnerRequest(botName, piece, reason)` (part_004): resolve the
partner; return unchanged when there is none (Partner's partner is the
human) or when the reason is `mated`/`player_command`; otherwise store the
request under the partner's key.  (The delayed "I will try." chat is a
`setTimeout` side channel and is not part of the state transition.) -/
def setPartnerRequest (s : GameState) (botName : BotName) (piece : PieceType)
    (reason : String) : GameState :=
  match getPartnerBotName botName with
  | none => s
  | some partnerName =>
    if reason = "mated" ∨ reason = "player_command" then s
    else
      setRequest s partnerName
        (some { piece := piece, reason := reason, requestedBy := botKeyStr botName })

/-- `clearPartnerRequest(botName)` (part_004). -/
def clearPartnerRequest (s : GameState) (botName : BotName) : GameState :=
  setRequest s botName none

/-- `getDropColor(board, piece)` (part_004): the colour of a dropped piece
is the side to move of its board. -/
def getDropColor (b : BoardFields) : Color :=
  if getCurrentTurnChars b = ['w'] then .w else .b

/-- `updatePiecePools()` (part_004): if the player board gained moves since
the last processed count and its last move is a non-drop capture, add one
piece of the captured type to the partner board's pool of the captured
piece's colour; then the same with the boards swapped; record the new
counts. -/
def updatePiecePools (s : GameState) : GameState :=
  let s1 :=
    if s.lastPlayerMoveCount < s.playerBoard.moveHistory.length then
      let s' :=
        match s.playerBoard.moveHistory.getLast? with
        | some m =>
          match m.captured, m.drop with
          | some c, none =>
            match pieceTypeOfChar c.toLower with
            | some pt =>
              if isWhitePieceChar c then
                { s with partnerBoard :=
                    { s.partnerBoard with
                        whitePiecePool := s.partnerBoard.whitePiecePool.addPiece pt } }
              else
                { s with partnerBoard :=
                    { s.partnerBoard with
                        blackPiecePool := s.partnerBoard.blackPiecePool.addPiece pt } }
            | none => s
          | _, _ => s
        | none => s
      { s' with lastPlayerMoveCount := s.playerBoard.moveHistory.length }
    else s
  if s1.lastPartnerMoveCount < s1.partnerBoard.moveHistory.length then
    let s' :=
      match s1.partnerBoard.moveHistory.getLast? with
      | some m =>
        match m.captured, m.drop with
        | some c, none =>
          match pieceTypeOfChar c.toLower with
          | some pt =>
            if isWhitePieceChar c then
              { s1 with playerBoard :=
                  { s1.playerBoard with
                      whitePiecePool := s1.playerBoard.whitePiecePool.addPiece pt } }
            else
              { s1 with playerBoard :=
                  { s1.playerBoard with
                      blackPiecePool := s1.playerBoard.blackPiecePool.addPiece pt } }
          | none => s1
        | _, _ => s1
      | none => s1
    { s' with lastPartnerMoveCount := s1.partnerBoard.moveHistory.length }
  else s1

/-- The fulfillment check of `executeMoveOnBoard` (part_004, lines
1889–1958) for one stalling key: if the bot is stalling for a piece the
capture satisfies, the stall reason is not `mated`/`player_command`, the
stall is not player-induced, and the capturing bot is the stalling bot's
actual partner, then thank, clear the stall and the bot's outbound
request, and (when it is the stalling bot's turn) schedule it to move. -/
def fulfillForBot (s : GameState) (capturedType : PieceType)
    (capturingBot : BotName) (k : BotName) : GameState × List Chat × List BotName :=
  match stallingOf s k with
  | none => (s, [], [])
  | some rec0 =>
    if piecesFulfillRequest rec0.piece capturedType then
      if rec0.reason = "mated" ∨ rec0.reason = "player_command" ∨ rec0.playerInduced then
        (s, [], [])
      else
        match getPartnerBotName k with
        | some expectedPartner =>
          if expectedPartner = capturingBot then
            let s1 := setStalling s k none
            let s2 := clearPartnerRequest s1 k
            let bid := (botBoardEngine k).1
            let plays := botPlaysThisTurn k (getCurrentTurnChars (boardOf s2 bid))
            (s2, [⟨botDisplay k, "Thanks :)"⟩], if plays then [k] else [])
          else (s, [], [])
        | none => (s, [], [])
    else (s, [], [])

/-- The fulfillment loop over the three stalling keys in source order. -/
def fulfillCaptures (s : GameState) (capturedType : PieceType)
    (capturingBot : BotName) : GameState × List Chat × List BotName :=
  let r1 := fulfillForBot s capturedType capturingBot .bot1
  let r2 := fulfillForBot r1.1 capturedType capturingBot .partner
  let r3 := fulfillForBot r2.1 capturedType capturingBot .bot2
  (r3.1, r1.2.1 ++ r2.2.1 ++ r3.2.1, r1.2.2 ++ r2.2.2 ++ r3.2.2)

/-- `executeMoveOnBoard(board, engine, move)` (part_004): abort when the
game is over; for a drop, remove the dropped piece from the pool of the
side to move (aborting when unavailable); detect the captured piece from
the target square (never for drops); run the fulfillment loop for a
capture; apply the move to the board; return the fulfilled bots whose
turn it is.  (Evaluation logging has no game-state effect.) -/
def executeMoveOnBoard (s : GameState) (bid : BoardSide) (eid : EngineId)
    (mv : EngineMove) : GameState × List Chat × List BotName :=
  if s.status ≠ .inProgress then (s, [], [])
  else
    let board := boardOf s bid
    let dropInfo : Option (PieceType × Color) :=
      match mv.drop with
      | some ds =>
        match pieceTypeOfChar ((ds.data.headD ' ').toLower) with
        | some pt => some (pt, getDropColor board)
        | none => none
      | none => none
    match mv.drop with
    | some _ =>
      match dropInfo with
      | none => (s, [], [])
      | some (pt, dc) =>
        let pool := if dc = .w then board.whitePiecePool else board.blackPiecePool
        let rem := pool.removePiece pt
        if rem.2 = false then (s, [], [])
        else
          let board1 :=
            if dc = .w then { board with whitePiecePool := rem.1 }
            else { board with blackPiecePool := rem.1 }
          let s1 := setBoard s bid board1
          let board2 := boardAddMove board1
            { fromSq := mv.fromSq, toSq := mv.toSq, piece := "p", captured := none,
              promotion := mv.promotion, drop := some pt, dropColor := some dc }
          (setBoard s1 bid board2, [], [])
    | none =>
      let captured := getPieceAt board.fen mv.toSq
      let afterFulfill :=
        match captured with
        | some c =>
          match pieceTypeOfChar c.toLower with
          | some capturedType => fulfillCaptures s capturedType (identifyBot bid eid)
          | none => (s, [], [])
        | none => (s, [], [])
      let s1 := afterFulfill.1
      let board1 := boardAddMove (boardOf s1 bid)
        { fromSq := mv.fromSq, toSq := mv.toSq, piece := "p", captured := captured,
          promotion := mv.promotion, drop := none, dropColor := none }
      (setBoard s1 bid board1, afterFulfill.2.1, afterFulfill.2.2)

/-- `checkGameOver()` (part_004) touches only `status`: it consults the
engines (true-checkmate verification and stalemate checks, supplied here
as the oracle outcome `terminal`) and, while the game is in progress,
either sets a terminal status or leaves the state alone. -/
def checkGameOverOracle (s : GameState) (terminal : Option GameStatus) : GameState :=
  if s.status = .inProgress then
    match terminal with
    | some st => { s with status := st }
    | none => s
  else s

/-- The synchronous part of `makePlayerMove(from, to, promotion?)`
(part_004, lines 173–258): reject when the game is not in progress or it
is not the player's turn; detect the captured piece, push the move,
update the piece pools, run the game-over check.  The engine's reply is a
separate `makeEngineMove` call.  Returns the updated state and the JS
return value. -/
def makePlayerMovePhase1 (s : GameState) (fromSq toSq : String)
    (promotion : Option String) (terminal : Option GameStatus) : GameState × Bool :=
  if s.status ≠ .inProgress then (s, false)
  else if ¬ isPlayerTurn s.playerBoard then (s, false)
  else
    let captured := getPieceAt s.playerBoard.fen toSq
    let b1 := boardAddMove s.playerBoard
      { fromSq := fromSq, toSq := toSq, piece := "p", captured := captured,
        promotion := promotion }
    let s1 := { s with playerBoard := b1 }
    let s2 := updatePiecePools s1
    let s3 := checkGameOverOracle s2 terminal
    (s3, true)

/-- The delayed body of `sendSitCommand()` (part_004): if Partner already
stalls, answer "I am."; otherwise enter the player-induced stall
`{ piece: 'q', reason: 'player_command', playerInduced: true }` with
"I sit.". -/
def sendSitCommandEffect (s : GameState) : GameState × List Chat :=
  match s.stallingPartner with
  | some _ => (s, [⟨"Partner", "I am."⟩])
  | none =>
    ({ s with
        stallingPartner :=
          some { piece := .q, reason := "player_command", playerInduced := true } },
      [⟨"Partner", "I sit."⟩])

/-- The delayed body of `sendGoCommand()` (part_004): if Partner stalls,
emit "I go.", delete the stall, clear Partner's request and set the
`partnerForcedToGo` latch; otherwise Partner answers "?". -/
def sendGoCommandEffect (s : GameState) : GameState × List Chat :=
  match s.stallingPartner with
  | some _ =>
    ({ s with
        stallingPartner := none
        requestPartner := none
        partnerForcedToGo := true }, [⟨"Partner", "I go."⟩])
  | none => (s, [⟨"Partner", "?"⟩])

/-- One key of the `checkTimeBasedStallAbandonment()` loop (part_004):
player-induced stalls are skipped outright; otherwise, when the bot is no
longer strictly up on its diagonal, emit "I go.", delete the stall, clear
the partner's inbound request, and resume the bot when it is its turn. -/
def abandonForBot (s : GameState) (times : ClockTimes) (k : BotName) :
    GameState × List Chat × List BotName :=
  match stallingOf s k with
  | none => (s, [], [])
  | some rec0 =>
    if rec0.playerInduced then (s, [], [])
    else
      let bd := getBotAndDiagonalTimes k times
      if bd.1 ≤ bd.2 then
        let s1 := setStalling s k none
        let s2 :=
          match getPartnerBotName k with
          | some partnerName => clearPartnerRequest s1 partnerName
          | none => s1
        let bid := (botBoardEngine k).1
        let plays := botPlaysThisTurn k (getCurrentTurnChars (boardOf s bid))
        (s2, [⟨botDisplay k, "I go."⟩], if plays then [k] else [])
      else (s, [], [])

/-- `checkTimeBasedStallAbandonment()` (part_004): no clock source means no
abandonment; otherwise process the three keys in source order. -/
def checkTimeBasedStallAbandonment (s : GameState) (times : Option ClockTimes) :
    GameState × List Chat × List BotName :=
  match times with
  | none => (s, [], [])
  | some t =>
    let r1 := abandonForBot s t .bot1
    let r2 := abandonForBot r1.1 t .partner
    let r3 := abandonForBot r2.1 t .bot2
    (r3.1, r1.2.1 ++ r2.2.1 ++ r3.2.1, r1.2.2 ++ r2.2.2 ++ r3.2.2)

/-- A `shouldStallForPiece` outcome (its engine evaluations and random draw
are environment inputs, so the whole result is an oracle to
`makeEngineMove`). -/
structure StallResultRec where
  piece : PieceType
  scenario : String
  shouldStall : Bool
  mateDistance : Option Int := none
deriving DecidableEq, Repr

/-- The environment of one `makeEngineMove` call: the `shouldStallForPiece`
outcome, the engine's selected move, the moves selected for bots resumed
by fulfillment, and the clock reading. -/
structure EngineOracle where
  stallResult : Option StallResultRec
  bestMove : EngineMove
  moveBot1 : EngineMove := { fromSq := "", toSq := "" }
  movePartner : EngineMove := { fromSq := "", toSq := "" }
  moveBot2 : EngineMove := { fromSq := "", toSq := "" }
  clocks : Option ClockTimes := none
deriving DecidableEq, Repr

/-- The oracle's move for a resumed bot. -/
def oracleMoveFor (o : EngineOracle) : BotName → EngineMove
  | .bot1 => o.moveBot1
  | .partner => o.movePartner
  | .bot2 => o.moveBot2

/-- The scenario-specific stall request message of `makeEngineMove`. -/
def scenarioMessage (r : StallResultRec) : String :=
  let pieceU := String.mk [(pieceLower r.piece).toUpper]
  if r.scenario = "forces_mate" then
    pieceU ++ " mates in " ++ toString (r.mateDistance.getD 0) ++ "."
  else if r.scenario = "saves_mate_in_1" ∨ r.scenario = "saves_from_mate" then
    pieceU ++ " helps me survive"
  else if r.scenario = "lost_to_winning" then
    pieceU ++ " saves my position"
  else ""

/-- The fulfilled-bot loop at the end of `makeEngineMove`: each resumed bot
immediately moves on its own board (stopping when the game ends). -/
def processFulfilled (s : GameState) (l : List BotName) (o : EngineOracle) :
    GameState × List Chat :=
  match l with
  | [] => (s, [])
  | k :: rest =>
    if s.status ≠ .inProgress then (s, [])
    else
      let be := botBoardEngine k
      let r := executeMoveOnBoard s be.1 be.2 (oracleMoveFor o k)
      let r2 := processFulfilled r.1 rest o
      (r2.1, r.2.1 ++ r2.2)

/-- `makeEngineMove(board, engine)` (part_004): a bot already in the
stalling state returns without applying a move; the Partner forced-to-go
latch forces an immediate move and resets; otherwise the stall decision
(oracle) may enter a stall (returning without a move), or fall through to
playing the selected move, updating pools and resuming fulfilled bots. -/
def makeEngineMove (s : GameState) (bid : BoardSide) (eid : EngineId)
    (o : EngineOracle) : GameState × List Chat :=
  let botName := identifyBot bid eid
  match stallingOf s botName with
  | some _ => (s, [])
  | none =>
    if botName = .partner ∧ s.partnerForcedToGo = true then
      let s1 := { s with partnerForcedToGo := false }
      let r := executeMoveOnBoard s1 bid eid o.bestMove
      (r.1, r.2.1)
    else
      match o.stallResult with
      | some r =>
        if r.scenario = "mated" then
          let chats0 : List Chat := [⟨botDisplay botName, "I am mated"⟩]
          if r.shouldStall then
            let s1 := setStalling s botName
              (some { piece := r.piece, reason := r.scenario })
            let s2 := setPartnerRequest s1 botName r.piece r.scenario
            (s2, chats0)
          else
            let r1 := executeMoveOnBoard s bid eid o.bestMove
            (r1.1, chats0 ++ r1.2.1)
        else
          let requestMessage := scenarioMessage r
          if r.shouldStall then
            let s1 := setStalling s botName
              (some { piece := r.piece, reason := r.scenario })
            let s2 := setPartnerRequest s1 botName r.piece r.scenario
            let s3 := setDownFlag s2 botName false
            (s3, [⟨botDisplay botName, requestMessage⟩])
          else
            let upT :=
              match o.clocks with
              | some t => upOnTime botName t
              | none => false
            let stepMsg : GameState × List Chat :=
              if upT then
                (setDownFlag s botName false, [⟨botDisplay botName, requestMessage⟩])
              else if downFlagOf s botName = false then
                (setDownFlag s botName true, [⟨botDisplay botName, requestMessage⟩])
              else (s, [])
            let r1 := executeMoveOnBoard stepMsg.1 bid eid o.bestMove
            let s2 := if r1.2.2 ≠ [] then updatePiecePools r1.1 else r1.1
            let r2 := processFulfilled s2 r1.2.2 o
            (r2.1, stepMsg.2 ++ r1.2.1 ++ r2.2)
      | none =>
        let r1 := executeMoveOnBoard s bid eid o.bestMove
        let s2 := if r1.2.2 ≠ [] then updatePiecePools r1.1 else r1.1
        let r2 := processFulfilled s2 r1.2.2 o
        (r2.1, r1.2.1 ++ r2.2)

/-! ## Concrete scenario states -/

/-- The `Board` constructor (Board.ts): starting FEN, empty history and
pools. -/
def mkBoard (side : BoardSide) (playerColor : Color) : BoardFields :=
  { fen := startingFen, moveHistory := [], whitePiecePool := .empty,
    blackPiecePool := .empty, side := side, playerColor := playerColor }

/-- The freshly initialised game with the human playing white: player
board (human white), partner board (Partner black), status in progress
(the `BughouseGame` constructor plus `initialize()`). -/
def initialGame : GameState :=
  { playerBoard := mkBoard .player .w, partnerBoard := mkBoard .partner .b,
    status := .inProgress }

/-- A no-stall decision oracle whose selected move is `d7d5`. -/
def oracleD7D5 : EngineOracle :=
  { stallResult := none, bestMove := { fromSq := "d7", toSq := "d5" } }

/-- The game after human `e2e4` and the opponent's reply `d7d5` on the
player board, pools updated after each move as in `makePlayerMove`. -/
def gameAfterTwoMoves : GameState :=
  updatePiecePools
    (makeEngineMove (makePlayerMovePhase1 initialGame "e2" "e4" none none).1
      .player .player oracleD7D5).1

/-- The scenario-S1 end state: the human then captures with `e4xd5`. -/
def gameAfterS1 : GameState :=
  (makePlayerMovePhase1 gameAfterTwoMoves "e4" "d5" none none).1

/-- `gameAfterTwoMoves` with Partner stalling for a pawn (scenario
`forces_mate`, not player-induced). -/
def partnerStallState : GameState :=
  { gameAfterTwoMoves with
      stallingPartner := some { piece := .p, reason := "forces_mate" } }

/-- `gameAfterTwoMoves` with Bot 1 stalling for a queen. -/
def bot1StallState : GameState :=
  { gameAfterTwoMoves with
      stallingBot1 := some { piece := .q, reason := "forces_mate" } }

/-- A fresh game with Bot 1 in a decision-cycle stall. -/
def bot1SittingState : GameState :=
  { initialGame with
      stallingBot1 := some { piece := .n, reason := "saves_from_mate" } }

/-- A move record for a single processed non-drop capture of a black pawn. -/
def capturedPawnMove : MoveRec :=
  { fromSq := "e4", toSq := "d5", piece := "p", captured := some 'p' }

/-- A game whose player board holds exactly one new move, the capture
above, not yet processed by the piece-flow coordinator. -/
def pendingCaptureState : GameState :=
  { initialGame with
      playerBoard := { mkBoard .player .w with moveHistory := [capturedPawnMove] } }

/-- A fresh game with Partner in the player-induced (Sit-command) stall. -/
def partnerSittingState : GameState :=
  { initialGame with
      stallingPartner :=
        some { piece := .q, reason := "player_command", playerInduced := true } }

/-- C9: For every piece type and scenario, the stall probability used by the
decision cycle equals the specified table — pawn 0.98/0.90/0.60, knight
0.95/0.70/0.50, bishop 0.95/0.70/0.50, rook 0.95/0.33/0, queen
0.95/0.25/0 for forces_mate/saves_from_mate/lost_to_winning — and every
(piece, scenario) pair outside those three scenarios yields 0. -/
theorem stall_probability_table :
    (getStallProbability .p "forces_mate" = 0.98
      ∧ getStallProbability .p "saves_from_mate" = 0.90
      ∧ getStallProbability .p "lost_to_winning" = 0.60)
    ∧ (getStallProbability .n "forces_mate" = 0.95
      ∧ getStallProbability .n "saves_from_mate" = 0.70
      ∧ getStallProbability .n "lost_to_winning" = 0.50)
    ∧ (getStallProbability .b "forces_mate" = 0.95
      ∧ getStallProbability .b "saves_from_mate" = 0.70
      ∧ getStallProbability .b "lost_to_winning" = 0.50)
    ∧ (getStallProbability .r "forces_mate" = 0.95
      ∧ getStallProbability .r "saves_from_mate" = 0.33
      ∧ getStallProbability .r "lost_to_winning" = 0)
    ∧ (getStallProbability .q "forces_mate" = 0.95
      ∧ getStallProbability .q "saves_from_mate" = 0.25
      ∧ getStallProbability .q "lost_to_winning" = 0)
    ∧ ∀ (piece : PieceType) (scenario : String),
        scenario ≠ "forces_mate" → scenario ≠ "saves_from_mate" →
        scenario ≠ "lost_to_winning" →
        getStallProbability piece scenario = 0 := by
  refine ⟨⟨rfl, rfl, rfl⟩, ⟨rfl, rfl, rfl⟩, ⟨rfl, rfl, rfl⟩,
    ⟨rfl, rfl, by simp [getStallProbability]; norm_num⟩,
    ⟨rfl, rfl, by simp [getStallProbability]; norm_num⟩, ?_⟩
  intro piece scenario h1 h2 h3
  cases piece <;> simp [getStallProbability, h1, h2, h3]

/-- C7: For every bot and every clock reading, the should-stall evaluation
compares the bot's own clock with its diagonal's clock — Bot 1 against
Partner, Partner against Bot 1, Bot 2 against the human — and the bot is
up on time exactly when its own clock strictly exceeds its diagonal's. -/
theorem diagonal_time_rule (botName : BotName) (times : ClockTimes) :
    getBotAndDiagonalTimes botName times
        = (seatClock (seatOf botName) times, seatClock (diagonalOf botName) times)
    ∧ (upOnTime botName times = true
        ↔ seatClock (seatOf botName) times > seatClock (diagonalOf botName) times) := by
  cases botName <;>
    simp [getBotAndDiagonalTimes, upOnTime, seatClock, seatOf, diagonalOf]

/-! ## Helper lemmas -/

/-- Removing a piece just added restores the original pool
(`addPiece` then `removePiece` of the same type). -/
theorem PiecePool.removePiece_addPiece (pool : PiecePool) (t : PieceType) :
    (removePiece (addPiece pool t) t).1 = pool := by
  cases t <;> simp [removePiece, addPiece, getCount]

/-- A packed character list cannot equal a string of different length. -/
theorem string_mk_ne {l : List Char} {t : String} (h : l.length ≠ t.length) :
    String.mk l ≠ t := by
  intro he
  apply h
  rw [← he]
  rfl

/-- `parseMove` on a well-formed (real) move string produces an object whose
`from`/`to` fields are none of the no-move markers. -/
theorem parseMove_real_move (s : String) (h1 : 4 ≤ s.length)
    (h2 : s ≠ "0000") (h3 : s ≠ "(none)")
    (h4 : s.data.contains '@' = false
      ∨ String.mk ((splitChar s.data '@').getD 1 []) ≠ "(none)") :
    (parseMove s).fromSq ≠ "(none)" ∧ (parseMove s).toSq ≠ "(none)"
      ∧ (parseMove s).fromSq ≠ "0000" := by
  have hne : s ≠ "" := by
    intro he
    rw [he] at h1
    simp [String.length] at h1
  have hcond : ¬ (s = "" ∨ s = "(none)" ∨ s = "0000") := by
    simp [hne, h2, h3]
  have hlen : ¬ (s.length < 4) := by omega
  have hdata : 4 ≤ s.data.length := h1
  unfold parseMove
  rw [if_neg hcond, if_neg hlen]
  cases hc : s.data.contains '@' with
  | true =>
    have h4' := h4.resolve_left (by rw [hc]; simp)
    simp only [hc, if_true]
    exact ⟨by decide, h4', by decide⟩
  | false =>
    have h6 : ("(none)" : String).length = 6 := rfl
    have h40 : ("0000" : String).length = 4 := rfl
    simp only [hc, Bool.false_eq_true, if_false]
    refine ⟨string_mk_ne ?_, string_mk_ne ?_, string_mk_ne ?_⟩
    · simp only [List.length_take]
      omega
    · simp only [List.length_take, List.length_drop]
      omega
    · simp only [List.length_take]
      omega

/-- Count bookkeeping of `addPiece`: exactly one unit of the added type. -/
theorem PiecePool.getCount_addPiece (pool : PiecePool) (t t' : PieceType) :
    (pool.addPiece t).getCount t' = pool.getCount t' + if t' = t then 1 else 0 := by
  cases t <;> cases t' <;> simp [PiecePool.addPiece, PiecePool.getCount]

/-- Partner's stall is never fulfilled by the bot-capture path: its expected
partner is `null` (`getPartnerBotName('Partner')`), which never equals the
capturing bot, so `fulfillForBot` is the identity on the Partner key. -/
theorem fulfillForBot_partner_id (s : GameState) (ct : PieceType) (cb : BotName) :
    fulfillForBot s ct cb .partner = (s, [], []) := by
  simp only [fulfillForBot]
  cases h : stallingOf s .partner with
  | none => rfl
  | some rec0 =>
    simp only [getPartnerBotName]
    split_ifs <;> rfl

/-- `fulfillForBot` never changes Partner's stalling record. -/
theorem fulfillForBot_stallingPartner (s : GameState) (ct : PieceType)
    (cb k : BotName) : (fulfillForBot s ct cb k).1.stallingPartner = s.stallingPartner := by
  cases k with
  | partner => rw [fulfillForBot_partner_id]
  | bot1 =>
    simp only [fulfillForBot]
    cases h : stallingOf s .bot1 with
    | none => rfl
    | some rec0 =>
      simp only [getPartnerBotName]
      split_ifs <;> rfl
  | bot2 =>
    simp only [fulfillForBot]
    cases h : stallingOf s .bot2 with
    | none => rfl
    | some rec0 =>
      simp only [getPartnerBotName]
      split_ifs <;> rfl

/-- `fulfillForBot` never changes the player board. -/
theorem fulfillForBot_playerBoard (s : GameState) (ct : PieceType) (cb k : BotName) :
    (fulfillForBot s ct cb k).1.playerBoard = s.playerBoard := by
  cases k <;>
    (simp only [fulfillForBot]
     cases h : stallingOf s _ with
     | none => rfl
     | some rec0 =>
       simp only [getPartnerBotName]
       split_ifs <;> rfl)

/-- `fulfillForBot` never changes the partner board. -/
theorem fulfillForBot_partnerBoard (s : GameState) (ct : PieceType) (cb k : BotName) :
    (fulfillForBot s ct cb k).1.partnerBoard = s.partnerBoard := by
  cases k <;>
    (simp only [fulfillForBot]
     cases h : stallingOf s _ with
     | none => rfl
     | some rec0 =>
       simp only [getPartnerBotName]
       split_ifs <;> rfl)

/-- `fulfillForBot` never changes the game status. -/
theorem fulfillForBot_status (s : GameState) (ct : PieceType) (cb k : BotName) :
    (fulfillForBot s ct cb k).1.status = s.status := by
  cases k <;>
    (simp only [fulfillForBot]
     cases h : stallingOf s _ with
     | none => rfl
     | some rec0 =>
       simp only [getPartnerBotName]
       split_ifs <;> rfl)

/-- `fulfillForBot` never changes the forced-to-go latch. -/
theorem fulfillForBot_latch (s : GameState) (ct : PieceType) (cb k : BotName) :
    (fulfillForBot s ct cb k).1.partnerForcedToGo = s.partnerForcedToGo := by
  cases k <;>
    (simp only [fulfillForBot]
     cases h : stallingOf s _ with
     | none => rfl
     | some rec0 =>
       simp only [getPartnerBotName]
       split_ifs <;> rfl)

/-- The fulfillment loop never changes Partner's stalling record. -/
theorem fulfillCaptures_stallingPartner (s : GameState) (ct : PieceType)
    (cb : BotName) : (fulfillCaptures s ct cb).1.stallingPartner = s.stallingPartner := by
  simp only [fulfillCaptures]
  rw [fulfillForBot_stallingPartner, fulfillForBot_stallingPartner,
    fulfillForBot_stallingPartner]

/-- The fulfillment loop never changes the player board. -/
theorem fulfillCaptures_playerBoard (s : GameState) (ct : PieceType) (cb : BotName) :
    (fulfillCaptures s ct cb).1.playerBoard = s.playerBoard := by
  simp only [fulfillCaptures]
  rw [fulfillForBot_playerBoard, fulfillForBot_playerBoard, fulfillForBot_playerBoard]

/-- The fulfillment loop never changes the partner board. -/
theorem fulfillCaptures_partnerBoard (s : GameState) (ct : PieceType) (cb : BotName) :
    (fulfillCaptures s ct cb).1.partnerBoard = s.partnerBoard := by
  simp only [fulfillCaptures]
  rw [fulfillForBot_partnerBoard, fulfillForBot_partnerBoard, fulfillForBot_partnerBoard]

/-- The fulfillment loop never changes the game status. -/
theorem fulfillCaptures_status (s : GameState) (ct : PieceType) (cb : BotName) :
    (fulfillCaptures s ct cb).1.status = s.status := by
  simp only [fulfillCaptures]
  rw [fulfillForBot_status, fulfillForBot_status, fulfillForBot_status]

/-- The fulfillment loop never changes the forced-to-go latch. -/
theorem fulfillCaptures_latch (s : GameState) (ct : PieceType) (cb : BotName) :
    (fulfillCaptures s ct cb).1.partnerForcedToGo = s.partnerForcedToGo := by
  simp only [fulfillCaptures]
  rw [fulfillForBot_latch, fulfillForBot_latch, fulfillForBot_latch]

/-- `executeMoveOnBoard` never changes Partner's stalling record, the game
status or the forced-to-go latch. -/
theorem executeMoveOnBoard_preserves (s : GameState) (bid : BoardSide)
    (eid : EngineId) (mv : EngineMove) :
    (executeMoveOnBoard s bid eid mv).1.stallingPartner = s.stallingPartner
    ∧ (executeMoveOnBoard s bid eid mv).1.status = s.status
    ∧ (executeMoveOnBoard s bid eid mv).1.partnerForcedToGo = s.partnerForcedToGo := by
  unfold executeMoveOnBoard
  repeat' split
  all_goals refine ⟨?_, ?_, ?_⟩
  all_goals cases bid
  all_goals dsimp only
  all_goals repeat' split
  all_goals
    simp [setBoard, fulfillCaptures_stallingPartner, fulfillCaptures_status,
      fulfillCaptures_latch]

/-- The resumed-bot loop preserves Partner's stalling record, the status
and the latch. -/
theorem processFulfilled_preserves (l : List BotName) (s : GameState)
    (o : EngineOracle) :
    (processFulfilled s l o).1.stallingPartner = s.stallingPartner
    ∧ (processFulfilled s l o).1.status = s.status
    ∧ (processFulfilled s l o).1.partnerForcedToGo = s.partnerForcedToGo := by
  induction l generalizing s with
  | nil => exact ⟨rfl, rfl, rfl⟩
  | cons k rest ih =>
    simp only [processFulfilled]
    split
    · exact ⟨rfl, rfl, rfl⟩
    · obtain ⟨e1, e2, e3⟩ :=
        executeMoveOnBoard_preserves s (botBoardEngine k).1 (botBoardEngine k).2
          (oracleMoveFor o k)
      obtain ⟨i1, i2, i3⟩ :=
        ih (executeMoveOnBoard s (botBoardEngine k).1 (botBoardEngine k).2
          (oracleMoveFor o k)).1
      exact ⟨by rw [i1, e1], by rw [i2, e2], by rw [i3, e3]⟩

/-- `updatePiecePools` changes only pools and the processed-move counters:
stalling records, requests, status and the latch are untouched. -/
theorem updatePiecePools_preserves (s : GameState) :
    (∀ k, stallingOf (updatePiecePools s) k = stallingOf s k)
    ∧ (updatePiecePools s).status = s.status
    ∧ (updatePiecePools s).partnerForcedToGo = s.partnerForcedToGo := by
  refine ⟨fun k => ?_, ?_, ?_⟩ <;>
    (try cases k) <;>
      (unfold updatePiecePools
       dsimp only
       repeat' split
       all_goals rfl)

/-- `checkGameOverOracle` touches only the status. -/
theorem checkGameOverOracle_preserves (s : GameState) (term : Option GameStatus) :
    (∀ k, stallingOf (checkGameOverOracle s term) k = stallingOf s k)
    ∧ (checkGameOverOracle s term).playerBoard = s.playerBoard
    ∧ (checkGameOverOracle s term).partnerBoard = s.partnerBoard
    ∧ (checkGameOverOracle s term).partnerForcedToGo = s.partnerForcedToGo := by
  refine ⟨fun k => ?_, ?_, ?_, ?_⟩ <;>
    (try cases k) <;>
      (unfold checkGameOverOracle
       repeat' split
       all_goals rfl)

/-- The human-move path performs no fulfillment: `makePlayerMove` never
touches any stalling record. -/
theorem makePlayerMovePhase1_stalling (s : GameState) (f t : String)
    (p : Option String) (term : Option GameStatus) (k : BotName) :
    stallingOf (makePlayerMovePhase1 s f t p term).1 k = stallingOf s k := by
  unfold makePlayerMovePhase1
  split
  · rfl
  · split
    · rfl
    · dsimp only
      rw [(checkGameOverOracle_preserves _ term).1 k,
        (updatePiecePools_preserves _).1 k]
      cases k <;> rfl

/-- `setPartnerRequest` touches only request fields. -/
theorem setPartnerRequest_stallingPartner (s : GameState) (bn : BotName)
    (pc : PieceType) (rsn : String) :
    (setPartnerRequest s bn pc rsn).stallingPartner = s.stallingPartner := by
  cases bn <;> simp only [setPartnerRequest, getPartnerBotName]
  all_goals (first | rfl | (split_ifs <;> simp [setRequest]))

/-- `setStalling` on a bot other than Partner preserves Partner's record. -/
theorem setStalling_stallingPartner (s : GameState) (k : BotName)
    (v : Option StallRecord) (h : k ≠ .partner) :
    (setStalling s k v).stallingPartner = s.stallingPartner := by
  cases k with
  | partner => exact absurd rfl h
  | bot1 => rfl
  | bot2 => rfl

/-- `setDownFlag` touches only down-time flags. -/
theorem setDownFlag_stallingPartner (s : GameState) (k : BotName) (v : Bool) :
    (setDownFlag s k v).stallingPartner = s.stallingPartner := by
  cases k <;> rfl

/-- Time-based abandonment skips player-induced stalls: one loop key never
removes a player-induced Partner stall. -/
theorem abandonForBot_playerInduced (s : GameState) (t : ClockTimes) (k : BotName)
    (rec0 : StallRecord) (h : s.stallingPartner = some rec0)
    (hp : rec0.playerInduced = true) :
    (abandonForBot s t k).1.stallingPartner = some rec0 := by
  cases k with
  | partner =>
    simp only [abandonForBot, stallingOf, h, hp]
    exact h
  | bot1 =>
    simp only [abandonForBot]
    cases hb : stallingOf s .bot1 with
    | none => exact h
    | some r1 =>
      dsimp only
      split_ifs <;> simp [getPartnerBotName, clearPartnerRequest, setRequest,
        setStalling, h]
  | bot2 =>
    simp only [abandonForBot]
    cases hb : stallingOf s .bot2 with
    | none => exact h
    | some r1 =>
      dsimp only
      split_ifs <;> simp [getPartnerBotName, clearPartnerRequest, setRequest,
        setStalling, h]

/-- Time-based abandonment never removes a player-induced Partner stall. -/
theorem checkTimeAbandonment_playerInduced (s : GameState)
    (times : Option ClockTimes) (rec0 : StallRecord)
    (h : s.stallingPartner = some rec0) (hp : rec0.playerInduced = true) :
    (checkTimeBasedStallAbandonment s times).1.stallingPartner = some rec0 := by
  cases times with
  | none => exact h
  | some t =>
    simp only [checkTimeBasedStallAbandonment]
    have h1 := abandonForBot_playerInduced s t .bot1 rec0 h hp
    have h2 := abandonForBot_playerInduced (abandonForBot s t .bot1).1 t .partner rec0 h1 hp
    have h3 := abandonForBot_playerInduced
      (abandonForBot (abandonForBot s t .bot1).1 t .partner).1 t .bot2 rec0 h2 hp
    exact h3

/-- Projection of `executeMoveOnBoard_preserves`. -/
theorem executeMoveOnBoard_stallingPartner (s : GameState) (bid : BoardSide)
    (eid : EngineId) (mv : EngineMove) :
    (executeMoveOnBoard s bid eid mv).1.stallingPartner = s.stallingPartner :=
  (executeMoveOnBoard_preserves s bid eid mv).1

/-- Projection of `processFulfilled_preserves`. -/
theorem processFulfilled_stallingPartner (l : List BotName) (s : GameState)
    (o : EngineOracle) :
    (processFulfilled s l o).1.stallingPartner = s.stallingPartner :=
  (processFulfilled_preserves l s o).1

/-- Projection of `updatePiecePools_preserves` at the Partner key. -/
theorem updatePiecePools_stallingPartner (s : GameState) :
    (updatePiecePools s).stallingPartner = s.stallingPartner :=
  (updatePiecePools_preserves s).1 .partner

/-- The decision cycle never removes an existing Partner stall: a stalling
Partner early-returns, and no branch run for another bot deletes
Partner's record. -/
theorem makeEngineMove_keeps_partner_stall (s : GameState) (bid : BoardSide)
    (eid : EngineId) (o : EngineOracle) (rec0 : StallRecord)
    (h : s.stallingPartner = some rec0) :
    (makeEngineMove s bid eid o).1.stallingPartner = some rec0 := by
  unfold makeEngineMove
  dsimp only
  cases hbn : stallingOf s (identifyBot bid eid) with
  | some r => exact h
  | none =>
    have hbp : identifyBot bid eid ≠ .partner := by
      intro he
      rw [he] at hbn
      simp [stallingOf, h] at hbn
    repeat' split
    all_goals
      simp only [executeMoveOnBoard_stallingPartner, processFulfilled_stallingPartner,
        updatePiecePools_stallingPartner, setDownFlag_stallingPartner,
        setPartnerRequest_stallingPartner, setStalling_stallingPartner _ _ _ hbp]
    all_goals exact h

/-- An engine move on the partner board while the game is in progress and
the selected move is not a drop appends exactly one move to the partner
board's history. -/
theorem executeMoveOnBoard_partnerHistory (s : GameState) (eid : EngineId)
    (mv : EngineMove) (hs : s.status = .inProgress) (hd : mv.drop = none) :
    (executeMoveOnBoard s .partner eid mv).1.partnerBoard.moveHistory.length
      = s.partnerBoard.moveHistory.length + 1 := by
  unfold executeMoveOnBoard
  rw [if_neg (by simp [hs])]
  dsimp only [boardOf]
  rw [hd]
  dsimp only
  cases hcap : getPieceAt s.partnerBoard.fen mv.toSq with
  | none => simp [setBoard, boardOf, boardAddMove, hcap]
  | some c =>
    cases hpt : pieceTypeOfChar c.toLower with
    | none => simp [setBoard, boardOf, boardAddMove, hcap, hpt]
    | some ct =>
      simp [setBoard, boardOf, boardAddMove, hcap, hpt, fulfillCaptures_partnerBoard]

/-- A FEN digit character denotes a value between 1 and 8. -/
theorem fenDigit_bounds (c : Char) (h : isFenDigit c = true) :
    1 ≤ fenDigitVal c ∧ fenDigitVal c ≤ 8 := by
  simp only [isFenDigit, decide_eq_true_eq] at h
  obtain ⟨h1, h2⟩ := h
  have g1 : 49 ≤ c.toNat := h1
  have g2 : c.toNat ≤ 56 := h2
  unfold fenDigitVal
  omega

/-- `toString` of a value between 1 and 8 is a single FEN digit. -/
theorem natChars_small (n : Nat) (h1 : 1 ≤ n) (h8 : n ≤ 8) :
    ∃ c, natChars n = [c] ∧ isFenDigit c = true ∧ fenDigitVal c = n := by
  interval_cases n
  · exact ⟨'1', by decide, by decide, by decide⟩
  · exact ⟨'2', by decide, by decide, by decide⟩
  · exact ⟨'3', by decide, by decide, by decide⟩
  · exact ⟨'4', by decide, by decide, by decide⟩
  · exact ⟨'5', by decide, by decide, by decide⟩
  · exact ⟨'6', by decide, by decide, by decide⟩
  · exact ⟨'7', by decide, by decide, by decide⟩
  · exact ⟨'8', by decide, by decide, by decide⟩

/-- `splitChar` never produces an empty segment list. -/
theorem splitChar_ne_nil (l : List Char) (sep : Char) : splitChar l sep ≠ [] := by
  cases l with
  | nil => simp [splitChar]
  | cons c rest =>
    simp only [splitChar]
    split_ifs
    · simp
    · cases h : splitChar rest sep <;> simp

/-- Segments produced by `splitChar` do not contain the separator. -/
theorem not_mem_of_mem_splitChar {sep : Char} :
    ∀ {l seg : List Char}, seg ∈ splitChar l sep → sep ∉ seg := by
  intro l
  induction l with
  | nil =>
    intro seg h
    simp [splitChar] at h
    simp [h]
  | cons c rest ih =>
    intro seg h
    simp only [splitChar] at h
    split_ifs at h with hc
    · rcases List.mem_cons.mp h with h1 | h1
      · simp [h1]
      · exact ih h1
    · cases hs : splitChar rest sep with
      | nil => exact absurd hs (splitChar_ne_nil rest sep)
      | cons sh st =>
        rw [hs] at h
        rcases List.mem_cons.mp h with h1 | h1
        · subst h1
          intro hmem
          rcases List.mem_cons.mp hmem with h2 | h2
          · exact hc h2.symm
          · exact ih (by rw [hs]; exact List.mem_cons_self sh st) h2
        · exact ih (by rw [hs]; exact List.mem_cons_of_mem sh h1)

/-- Characters of `splitChar` segments come from the original list. -/
theorem mem_of_mem_splitChar {a sep : Char} :
    ∀ {l seg : List Char}, seg ∈ splitChar l sep → a ∈ seg → a ∈ l := by
  intro l
  induction l with
  | nil =>
    intro seg h ha
    simp [splitChar] at h
    simp [h] at ha
  | cons c rest ih =>
    intro seg h ha
    simp only [splitChar] at h
    split_ifs at h with hc
    · rcases List.mem_cons.mp h with h1 | h1
      · simp [h1] at ha
      · exact List.mem_cons_of_mem c (ih h1 ha)
    · cases hs : splitChar rest sep with
      | nil => exact absurd hs (splitChar_ne_nil rest sep)
      | cons sh st =>
        rw [hs] at h
        rcases List.mem_cons.mp h with h1 | h1
        · subst h1
          rcases List.mem_cons.mp ha with h2 | h2
          · simp [h2]
          · exact List.mem_cons_of_mem c
              (ih (by rw [hs]; exact List.mem_cons_self sh st) h2)
        · exact List.mem_cons_of_mem c
            (ih (by rw [hs]; exact List.mem_cons_of_mem sh h1) ha)

/-- A separator-free list splits to itself. -/
theorem splitChar_no_sep {sep : Char} :
    ∀ {l : List Char}, sep ∉ l → splitChar l sep = [l] := by
  intro l
  induction l with
  | nil => intro _; rfl
  | cons c rest ih =>
    intro h
    have hc : ¬ (c = sep) := fun he => h (by simp [he])
    have hr : sep ∉ rest := fun hm => h (List.mem_cons_of_mem c hm)
    simp only [splitChar, if_neg hc, ih hr]

/-- Splitting a list that starts with a separator-free prefix. -/
theorem splitChar_append {sep : Char} :
    ∀ {l t : List Char}, sep ∉ l →
      splitChar (l ++ sep :: t) sep = l :: splitChar t sep := by
  intro l
  induction l with
  | nil =>
    intro t _
    simp [splitChar]
  | cons c rest ih =>
    intro t h
    have hc : ¬ (c = sep) := fun he => h (by simp [he])
    have hr : sep ∉ rest := fun hm => h (List.mem_cons_of_mem c hm)
    simp only [List.cons_append, splitChar, if_neg hc, List.append_eq, ih hr]

/-- `splitChar` inverts `joinChar` when no segment contains the separator. -/
theorem splitChar_joinChar {sep : Char} :
    ∀ {ls : List (List Char)}, ls ≠ [] → (∀ seg ∈ ls, sep ∉ seg) →
      splitChar (joinChar ls sep) sep = ls := by
  intro ls
  induction ls with
  | nil => intro h _; exact absurd rfl h
  | cons l rest ih =>
    intro _ h
    cases rest with
    | nil =>
      simp only [joinChar]
      exact splitChar_no_sep (h l (List.mem_cons_self l []))
    | cons l2 rest2 =>
      have h1 : sep ∉ l := h l (List.mem_cons_self l (l2 :: rest2))
      have h2 : ∀ seg ∈ l2 :: rest2, sep ∉ seg :=
        fun seg hm => h seg (List.mem_cons_of_mem l hm)
      simp only [joinChar, splitChar_append h1]
      rw [ih (by simp) h2]

/-- Characters of a join come from the segments or are the separator. -/
theorem mem_joinChar {a sep : Char} :
    ∀ {ls : List (List Char)}, a ∈ joinChar ls sep →
      a = sep ∨ ∃ seg ∈ ls, a ∈ seg := by
  intro ls
  induction ls with
  | nil => intro h; simp [joinChar] at h
  | cons l rest ih =>
    intro h
    cases rest with
    | nil =>
      simp only [joinChar] at h
      exact Or.inr ⟨l, List.mem_cons_self l [], h⟩
    | cons l2 rest2 =>
      simp only [joinChar] at h
      rcases List.mem_append.mp h with h1 | h1
      · exact Or.inr ⟨l, List.mem_cons_self l (l2 :: rest2), h1⟩
      · rcases List.mem_cons.mp h1 with h2 | h2
        · exact Or.inl h2
        · rcases ih h2 with h3 | ⟨seg, hs, ha⟩
          · exact Or.inl h3
          · exact Or.inr ⟨seg, List.mem_cons_of_mem l hs, ha⟩

/-- An expanded row has as many cells as the row denotes. -/
theorem expandRow_length :
    ∀ {chars : List Char} {cells : List (Option Char)},
      expandRow chars = some cells → cells.length = rowWidth chars := by
  intro chars
  induction chars with
  | nil =>
    intro cells h
    simp [expandRow] at h
    simp [← h, rowWidth]
  | cons c rest ih =>
    intro cells h
    simp only [expandRow] at h
    cases he : expandRow rest with
    | none => rw [he] at h; exact absurd h (by simp)
    | some cells' =>
      rw [he] at h
      dsimp only at h
      split_ifs at h with h1 h2
      · rw [← Option.some_inj.mp h]
        simp [rowWidth, h1, ih he]
      · rw [← Option.some_inj.mp h]
        simp [rowWidth, h1, ih he, Nat.add_comm]

/-- FEN digits are neither spaces nor slashes. -/
theorem fenDigit_ne {c : Char} (h : isFenDigit c = true) : c ≠ ' ' ∧ c ≠ '/' := by
  simp only [isFenDigit, decide_eq_true_eq] at h
  obtain ⟨h1, -⟩ := h
  have g1 : 49 ≤ c.toNat := h1
  constructor
  · intro he; rw [he] at g1; exact absurd g1 (by decide)
  · intro he; rw [he] at g1; exact absurd g1 (by decide)

/-- The dropped piece's FEN character is neither a space nor a slash. -/
theorem dropPieceChar_ne (pt : PieceType) (col : Color) :
    dropPieceChar pt col ≠ ' ' ∧ dropPieceChar pt col ≠ '/' := by
  cases pt <;> cases col <;> exact ⟨by decide, by decide⟩

/-- The optional digit-run segments of the drop walk are FEN digits. -/
theorem natChars_opt_digits {n : Nat} (hn : n ≤ 8) :
    ∀ x ∈ (if 0 < n then natChars n else []), isFenDigit x = true := by
  intro x hx
  split_ifs at hx with hp
  · obtain ⟨ch, hch, hfd, -⟩ := natChars_small n hp hn
    rw [hch] at hx
    rw [List.mem_singleton.mp hx]
    exact hfd
  · simp at hx

/-- Membership in the three-part insertion list. -/
theorem mem_insert_parts {a piece : Char} {B A W : List Char}
    (h : a ∈ B ++ piece :: A ++ W)
    (hB : ∀ x ∈ B, isFenDigit x = true) (hA : ∀ x ∈ A, isFenDigit x = true) :
    a = piece ∨ isFenDigit a = true ∨ a ∈ W := by
  rcases List.mem_append.mp h with h1 | h1
  · rcases List.mem_append.mp h1 with h2 | h2
    · exact Or.inr (Or.inl (hB a h2))
    · rcases List.mem_cons.mp h2 with h3 | h3
      · exact Or.inl h3
      · exact Or.inr (Or.inl (hA a h3))
  · exact Or.inr (Or.inr h1)

/-- Characters of a drop-insertion walk come from the original row, are
the dropped piece, or are FEN digits. -/
theorem mem_createDropWalk {a piece : Char} :
    ∀ {chars : List Char} {file cur : Nat} {ins : Bool},
      a ∈ createDropWalk chars file piece cur ins →
      a ∈ chars ∨ a = piece ∨ isFenDigit a = true := by
  intro chars
  induction chars with
  | nil => intro file cur ins h; simp [createDropWalk] at h
  | cons c rest ih =>
    intro file cur ins h
    simp only [createDropWalk] at h
    by_cases hc : isFenDigit c = true
    · rw [if_pos hc] at h
      by_cases hcov : ins = false ∧ cur ≤ file ∧ file < cur + fenDigitVal c
      · rw [if_pos hcov] at h
        obtain ⟨-, hc1, hc2⟩ := hcov
        have hb := fenDigit_bounds c hc
        rcases mem_insert_parts h (natChars_opt_digits (by omega))
            (natChars_opt_digits (by omega)) with h1 | h1 | h1
        · exact Or.inr (Or.inl h1)
        · exact Or.inr (Or.inr h1)
        · rcases ih h1 with h2 | h2
          · exact Or.inl (List.mem_cons_of_mem c h2)
          · exact Or.inr h2
      · rw [if_neg hcov] at h
        rcases List.mem_cons.mp h with h1 | h1
        · exact Or.inl (by simp [h1])
        · rcases ih h1 with h2 | h2
          · exact Or.inl (List.mem_cons_of_mem c h2)
          · exact Or.inr h2
    · rw [if_neg hc] at h
      rcases List.mem_cons.mp h with h1 | h1
      · exact Or.inl (by simp [h1])
      · rcases ih h1 with h2 | h2
        · exact Or.inl (List.mem_cons_of_mem c h2)
        · exact Or.inr h2

/-- The piece-lookup walk finds nothing left of the running file index. -/
theorem pieceAtWalk_none_of_lt :
    ∀ {chars : List Char} {file cur : Nat}, file < cur →
      pieceAtWalk chars file cur = none := by
  intro chars
  induction chars with
  | nil => intro file cur _; rfl
  | cons c rest ih =>
    intro file cur h
    simp only [pieceAtWalk]
    split_ifs with hc he
    · exact ih (by omega)
    · exact absurd he (by omega)
    · exact ih (by omega)

/-- A square the occupancy scan reports empty holds no piece. -/
theorem pieceAtWalk_none_of_scan :
    ∀ {chars : List Char} {file cur : Nat}, cur ≤ file →
      file < cur + rowWidth chars → rankScanEmpty chars file cur = true →
      pieceAtWalk chars file cur = none := by
  intro chars
  induction chars with
  | nil =>
    intro file cur h1 h2 _
    simp only [rowWidth] at h2
    omega
  | cons c rest ih =>
    intro file cur h1 h2 h3
    simp only [rowWidth] at h2
    simp only [rankScanEmpty] at h3
    split_ifs at h3 with hc hcov heq
    · simp only [pieceAtWalk, if_pos hc]
      exact pieceAtWalk_none_of_lt (by omega)
    · rw [if_pos hc] at h2
      simp only [pieceAtWalk, if_pos hc]
      exact ih (by omega) (by omega) h3
    · rw [if_neg hc] at h2
      simp only [pieceAtWalk, if_neg hc, if_neg heq]
      exact ih (by omega) (by omega) h3

/-- On a scan-empty covered file, the drop walk inserts the piece. -/
theorem createDropWalk_inserts {piece : Char} :
    ∀ {chars : List Char} {file cur : Nat}, cur ≤ file →
      file < cur + rowWidth chars → rankScanEmpty chars file cur = true →
      piece ∈ createDropWalk chars file piece cur false := by
  intro chars
  induction chars with
  | nil =>
    intro file cur h1 h2 _
    simp only [rowWidth] at h2
    omega
  | cons c rest ih =>
    intro file cur h1 h2 h3
    simp only [rowWidth] at h2
    simp only [rankScanEmpty] at h3
    simp only [createDropWalk]
    split_ifs at h3 with hc hcov heq
    · rw [if_pos hc, if_pos ⟨trivial, hcov⟩]
      simp
    · rw [if_pos hc] at h2
      rw [if_pos hc]
      have hnc : ¬ (True ∧ cur ≤ file ∧ file < cur + fenDigitVal c) :=
        fun hx => hcov hx.2
      rw [if_neg hnc]
      exact List.mem_cons_of_mem c (ih (by omega) (by omega) h3)
    · rw [if_neg hc] at h2
      rw [if_neg hc]
      exact List.mem_cons_of_mem c (ih (by omega) (by omega) h3)

/-- Characters of an indexed `splitChar` segment come from the split list. -/
theorem mem_getD_splitChar {a sep : Char} {l : List Char} {i : Nat}
    (h : a ∈ (splitChar l sep).getD i []) : a ∈ l := by
  by_cases hi : i < (splitChar l sep).length
  · exact mem_of_mem_splitChar
      (by rw [List.getD_eq_getElem _ [] hi]; exact List.getElem_mem hi) h
  · rw [List.getD_eq_default _ [] (Nat.le_of_not_lt hi)] at h
    simp at h

/-- An indexed `splitChar` segment is separator-free. -/
theorem not_mem_getD_splitChar {sep : Char} {l : List Char} {i : Nat} :
    sep ∉ (splitChar l sep).getD i [] := by
  by_cases hi : i < (splitChar l sep).length
  · exact not_mem_of_mem_splitChar
      (by rw [List.getD_eq_getElem _ [] hi]; exact List.getElem_mem hi)
  · rw [List.getD_eq_default _ [] (Nat.le_of_not_lt hi)]
    simp

/-- Splitting the join of split segments with one replaced recovers the
segments, provided the replacement is separator-free. -/
theorem split_join_set {sep : Char} (l : List Char) (i : Nat) (nr : List Char)
    (hnr : sep ∉ nr) :
    splitChar (joinChar ((splitChar l sep).set i nr) sep) sep
      = (splitChar l sep).set i nr := by
  apply splitChar_joinChar
  · intro h
    rw [List.set_eq_nil_iff] at h
    exact splitChar_ne_nil l sep h
  · intro seg hm
    rcases List.mem_or_eq_of_mem_set hm with h1 | h1
    · exact not_mem_of_mem_splitChar h1
    · rw [h1]; exact hnr

/-- Reading back the replaced entry of a list. -/
theorem getD_set_self {α : Type} (l : List α) (i : Nat) (a dflt : α)
    (h : i < l.length) : (l.set i a).getD i dflt = a := by
  rw [List.getD_eq_getElem?_getD]
  rw [List.getElem?_set_self]
  · simp
  · exact h

/-- Reading an untouched entry of a list with one entry replaced. -/
theorem getD_set_ne {α : Type} (l : List α) (i j : Nat) (a dflt : α)
    (h : i ≠ j) : (l.set i a).getD j dflt = l.getD j dflt := by
  rw [List.getD_eq_getElem?_getD, List.getElem?_set_ne h,
    ← List.getD_eq_getElem?_getD]

/-- Every rank row of a valid FEN denotes exactly 8 board cells. -/
theorem valid_row_width {fen : String} {i : Nat}
    (hv : validateFenModel fen = true)
    (hi : i < (splitChar ((fenFields fen).getD 0 []) '/').length) :
    rowWidth ((splitChar ((fenFields fen).getD 0 []) '/').getD i []) = 8 := by
  simp only [validateFenModel, Bool.and_eq_true, decide_eq_true_eq] at hv
  obtain ⟨-, hpos⟩ := hv
  simp only [validPositionModel, Bool.and_eq_true, decide_eq_true_eq,
    List.all_eq_true] at hpos
  obtain ⟨⟨⟨⟨-, hall⟩, -⟩, -⟩, -⟩ := hpos
  have hmem : (splitChar ((fenFields fen).getD 0 []) '/').getD i []
      ∈ splitChar ((fenFields fen).getD 0 []) '/' := by
    rw [List.getD_eq_getElem _ [] hi]
    exact List.getElem_mem hi
  have hx := hall _ hmem
  simp only [Bool.and_eq_true] at hx
  have hrow := hx.1
  cases he : expandRow ((splitChar ((fenFields fen).getD 0 []) '/').getD i []) with
  | none =>
    simp only [validRowModel, he] at hrow
    exact absurd hrow (by simp)
  | some cells =>
    simp only [validRowModel, he, decide_eq_true_eq] at hrow
    rw [← expandRow_length he]
    exact hrow

/-- The position field of a FEN contains no space. -/
theorem board_no_space (fen : String) : ' ' ∉ (fenFields fen).getD 0 [] :=
  not_mem_getD_splitChar

/-- The replacement rank row of a drop contains no space and no slash. -/
theorem createDropWalk_rank_chars {rankStr : List Char} {file : Nat}
    {pt : PieceType} {col : Color}
    (hsp : ' ' ∉ rankStr) (hsl : '/' ∉ rankStr) :
    ' ' ∉ createDropWalk rankStr file (dropPieceChar pt col) 0 false
    ∧ '/' ∉ createDropWalk rankStr file (dropPieceChar pt col) 0 false := by
  constructor
  · intro hm
    rcases mem_createDropWalk hm with h | h | h
    · exact hsp h
    · exact (dropPieceChar_ne pt col).1 h.symm
    · exact (fenDigit_ne h).1 rfl
  · intro hm
    rcases mem_createDropWalk hm with h | h | h
    · exact hsl h
    · exact (dropPieceChar_ne pt col).2 h.symm
    · exact (fenDigit_ne h).2 rfl

/-- The fields of the drop test FEN: the position field is replaced and
every other field is untouched. -/
theorem createDropFEN_fields (fen square : String) (pt : PieceType) (col : Color)
    (d : Nat) (hd : rankDigit square = some d) :
    fenFields (createDropFEN fen square pt col)
      = (fenFields fen).set 0
          (joinChar ((splitChar ((fenFields fen).getD 0 []) '/').set (8 - d)
            (createDropWalk
              ((splitChar ((fenFields fen).getD 0 []) '/').getD (8 - d) [])
              (fileOfSquare square) (dropPieceChar pt col) 0 false)) '/') := by
  unfold createDropFEN
  rw [hd]
  dsimp only
  apply splitChar_joinChar
  · intro h
    rw [List.set_eq_nil_iff] at h
    exact splitChar_ne_nil fen.data ' ' h
  · intro seg hm
    rcases List.mem_or_eq_of_mem_set hm with h1 | h1
    · exact not_mem_of_mem_splitChar h1
    · rw [h1]
      intro hmm
      rcases mem_joinChar hmm with h2 | ⟨seg2, hs2, ha2⟩
      · exact absurd h2 (by decide)
      · rcases List.mem_or_eq_of_mem_set hs2 with h3 | h3
        · exact board_no_space fen (mem_of_mem_splitChar h3 ha2)
        · rw [h3] at ha2
          exact (createDropWalk_rank_chars
            (fun hx => board_no_space fen (mem_getD_splitChar hx))
            not_mem_getD_splitChar).1 ha2

/-- A successfully loaded drop FEN reported check-free leaves the dropping
colour's king safe: the drop FEN keeps the original side to move. -/
theorem load_check_turn {fen square : String} {pt : PieceType} {col : Color}
    {d : Nat} (hd : rankDigit square = some d)
    (ht : (fenFields fen).getD 1 [] = [if col = .w then 'w' else 'b'])
    (hload : chessJsLoadIsCheck (createDropFEN fen square pt col) = some false) :
    kingInCheckFen (createDropFEN fen square pt col) col = false := by
  unfold chessJsLoadIsCheck at hload
  split_ifs at hload with hval
  · simp only [Option.some_inj] at hload
    unfold chessJsIsCheckModel at hload
    have hturn : (fenFields (createDropFEN fen square pt col)).getD 1 []
        = (fenFields fen).getD 1 [] := by
      rw [createDropFEN_fields fen square pt col d hd]
      exact getD_set_ne _ 0 1 _ _ (by omega)
    rw [hturn, ht] at hload
    cases col with
    | w => simpa using hload
    | b => simpa using hload

/-- Acceptance unfolding of `isDropLegal`: the guard holds, the occupancy
scan reports an empty target, and the test FEN loads check-free. -/
theorem isDropLegal_accept {fen square : String} {pt : PieceType} {col : Color}
    {d : Nat} (hd : rankDigit square = some d)
    (h : isDropLegal fen square pt col = true) :
    (1 ≤ d ∧ d ≤ 8 ∧ 8 - d < (splitChar ((fenFields fen).getD 0 []) '/').length)
    ∧ rankScanEmpty ((splitChar ((fenFields fen).getD 0 []) '/').getD (8 - d) [])
        (fileOfSquare square) 0 = true
    ∧ chessJsLoadIsCheck (createDropFEN fen square pt col) = some false := by
  unfold isDropLegal at h
  rw [hd] at h
  dsimp only at h
  split_ifs at h with hg hscan
  refine ⟨hg, ?_, ?_⟩
  · revert hscan
    cases rankScanEmpty ((splitChar ((fenFields fen).getD 0 []) '/').getD (8 - d) [])
        (fileOfSquare square) 0 <;> simp
  · cases hload : chessJsLoadIsCheck (createDropFEN fen square pt col) with
    | none => simp [hload] at h
    | some b =>
      cases b with
      | false => rfl
      | true => simp [hload] at h

/-- Accepted pawn drops never address rank 1 or rank 8: the pawn would land
on the top or bottom row of the test FEN, which chess.js rejects. -/
theorem pawn_edge_reject {fen square : String} {col : Color} {d : Nat}
    (hv : validateFenModel fen = true)
    (hd : rankDigit square = some d)
    (hf : fileOfSquare square < 8)
    (hedge : d = 1 ∨ d = 8)
    (hg : 1 ≤ d ∧ d ≤ 8 ∧ 8 - d < (splitChar ((fenFields fen).getD 0 []) '/').length)
    (hscan : rankScanEmpty ((splitChar ((fenFields fen).getD 0 []) '/').getD (8 - d) [])
        (fileOfSquare square) 0 = true)
    (hload : chessJsLoadIsCheck (createDropFEN fen square .p col) = some false) :
    False := by
  have hval : validateFenModel (createDropFEN fen square .p col) = true := by
    unfold chessJsLoadIsCheck at hload
    split_ifs at hload with h
    exact h
  have hw := valid_row_width hv hg.2.2
  have hpawn : dropPieceChar .p col
      ∈ createDropWalk ((splitChar ((fenFields fen).getD 0 []) '/').getD (8 - d) [])
          (fileOfSquare square) (dropPieceChar .p col) 0 false :=
    createDropWalk_inserts (Nat.zero_le _) (by rw [hw]; omega) hscan
  simp only [validateFenModel, Bool.and_eq_true, decide_eq_true_eq] at hval
  obtain ⟨-, hpos⟩ := hval
  rw [createDropFEN_fields fen square .p col d hd] at hpos
  have hne : fenFields fen ≠ [] := splitChar_ne_nil fen.data ' '
  rw [getD_set_self (fenFields fen) 0 _ [] (List.length_pos.mpr hne)] at hpos
  have hnr : '/' ∉ createDropWalk
      ((splitChar ((fenFields fen).getD 0 []) '/').getD (8 - d) [])
      (fileOfSquare square) (dropPieceChar .p col) 0 false :=
    (createDropWalk_rank_chars
      (fun hx => board_no_space fen (mem_getD_splitChar hx))
      not_mem_getD_splitChar).2
  simp only [validPositionModel, Bool.and_eq_true, decide_eq_true_eq] at hpos
  obtain ⟨-, hnp⟩ := hpos
  rw [split_join_set ((fenFields fen).getD 0 []) (8 - d) _ hnr] at hnp
  have hmem2 : dropPieceChar .p col
      ∈ ((splitChar ((fenFields fen).getD 0 []) '/').set (8 - d)
          (createDropWalk
            ((splitChar ((fenFields fen).getD 0 []) '/').getD (8 - d) [])
            (fileOfSquare square) (dropPieceChar .p col) 0 false)).getD (8 - d) [] := by
    rw [getD_set_self _ (8 - d) _ [] hg.2.2]
    exact hpawn
  rcases hedge with rfl | rfl
  · cases col with
    | w => exact hnp (Or.inr (Or.inr (Or.inl (List.elem_eq_true_of_mem hmem2))))
    | b => exact hnp (Or.inr (Or.inr (Or.inr (List.elem_eq_true_of_mem hmem2))))
  · cases col with
    | w => exact hnp (Or.inl (List.elem_eq_true_of_mem hmem2))
    | b => exact hnp (Or.inr (Or.inl (List.elem_eq_true_of_mem hmem2)))

/-! ## Claim theorems -/

/-- C1: `isDropLegal` accepts a drop only when the target square is empty,
the drop is not a pawn addressed to rank 1 or rank 8, and the dropping
side's king is not in check in the position after the drop (under the
chess.js model, with the dropping player to move); in particular, for every
position, a pawn drop on a square of rank 1 or rank 8 is rejected. -/
theorem drop_legality (fen square : String) (pieceType : PieceType)
    (playerColor : Color) (d : Nat)
    (hv : validateFenModel fen = true)
    (hd : rankDigit square = some d)
    (hf : fileOfSquare square < 8)
    (ht : (fenFields fen).getD 1 [] = [if playerColor = .w then 'w' else 'b']) :
    (isDropLegal fen square pieceType playerColor = true →
      getPieceAt fen square = none
      ∧ ¬ (pieceType = .p ∧ (d = 1 ∨ d = 8))
      ∧ kingInCheckFen (createDropFEN fen square pieceType playerColor)
          playerColor = false)
    ∧ ((pieceType = .p ∧ (d = 1 ∨ d = 8)) →
        isDropLegal fen square pieceType playerColor = false) := by
  constructor
  · intro hacc
    obtain ⟨hg, hscan, hload⟩ := isDropLegal_accept hd hacc
    refine ⟨?_, ?_, ?_⟩
    · unfold getPieceAt fenRows
      rw [hd]
      dsimp only
      rw [if_pos ⟨hg.1, hg.2.1⟩]
      have hw := valid_row_width hv hg.2.2
      exact pieceAtWalk_none_of_scan (Nat.zero_le _) (by rw [hw]; omega) hscan
    · rintro ⟨hp, hedge⟩
      subst hp
      exact pawn_edge_reject hv hd hf hedge hg hscan hload
    · exact load_check_turn hd ht hload
  · rintro ⟨hp, hedge⟩
    subst hp
    by_contra hacc'
    have hacc : isDropLegal fen square .p playerColor = true := by
      revert hacc'
      cases isDropLegal fen square .p playerColor <;> simp
    obtain ⟨hg, hscan, hload⟩ := isDropLegal_accept hd hacc
    exact pawn_edge_reject hv hd hf hedge hg hscan hload

/-- Witness for C1 at a concrete position: a white pawn drop on a1 is
rejected, via the theorem applied at explicit inputs. -/
theorem drop_legality_witness :
    isDropLegal ("4k3/8/8/8/8/8/8/4K3 w - - 0 1") ("a1") .p .w = false :=
  (drop_legality ("4k3/8/8/8/8/8/8/4K3 w - - 0 1") ("a1") .p .w 1
    (by decide) (by decide) (by decide) (by decide)).2 ⟨rfl, Or.inl rfl⟩

/-- Witness for C9: a scenario string outside the table yields probability
0, via the theorem applied at explicit inputs. -/
theorem stall_probability_table_witness :
    getStallProbability .r "no_such_scenario" = 0 :=
  stall_probability_table.2.2.2.2.2 .r "no_such_scenario"
    (by decide) (by decide) (by decide)

/-- C3: When standard checkmate is detected, the true-checkmate verification
temporarily adds one queen to the checkmated side's holdings, queries the
engine with movetime 500, returns true exactly when the engine reports no
legal move (`0000` / `(none)`) and false for a real move, and on every exit
path (engine error included) both holdings equal their values before the
call. -/
theorem true_checkmate_verification :
    (∀ (turn : Color) (wp bp : PiecePool) (probe : EngineProbe),
        (isTrueCheckmate true turn wp bp probe).whitePool = wp
        ∧ (isTrueCheckmate true turn wp bp probe).blackPool = bp)
    ∧ (∀ (turn : Color) (wp bp : PiecePool) (s : String),
        (isTrueCheckmate true turn wp bp (.best s)).probePool
            = some ((if turn = .w then wp else bp).addPiece .q)
        ∧ (isTrueCheckmate true turn wp bp (.best s)).probeMovetime = some 500)
    ∧ (∀ (turn : Color) (wp bp : PiecePool),
        (isTrueCheckmate true turn wp bp (.best "0000")).result = true
        ∧ (isTrueCheckmate true turn wp bp (.best "(none)")).result = true)
    ∧ (∀ (turn : Color) (wp bp : PiecePool) (s : String),
        4 ≤ s.length → s ≠ "0000" → s ≠ "(none)" →
        (s.data.contains '@' = false
          ∨ String.mk ((splitChar s.data '@').getD 1 []) ≠ "(none)") →
        (isTrueCheckmate true turn wp bp (.best s)).result = false)
    ∧ (∀ (turn : Color) (wp bp : PiecePool),
        (isTrueCheckmate true turn wp bp .err).result = false) := by
  refine ⟨?_, ?_, ?_, ?_, ?_⟩
  · intro turn wp bp probe
    cases probe <;> cases turn <;>
      simp [isTrueCheckmate, PiecePool.removePiece_addPiece]
  · intro turn wp bp s
    cases turn <;> simp [isTrueCheckmate]
  · intro turn wp bp
    cases turn <;> simp [isTrueCheckmate, parseMove, noneMove]
  · intro turn wp bp s hl hn1 hn2 hat
    obtain ⟨f1, f2, f3⟩ := parseMove_real_move s hl hn1 hn2 hat
    cases turn <;> simp [isTrueCheckmate, f1, f2, f3]
  · intro turn wp bp
    cases turn <;> simp [isTrueCheckmate]

/-- Witness for C3: a concrete real move `e2e4` is not classified as
true checkmate, via the theorem applied at explicit inputs. -/
theorem true_checkmate_verification_witness :
    (isTrueCheckmate true .w PiecePool.empty PiecePool.empty
        (.best "e2e4")).result = false :=
  true_checkmate_verification.2.2.2.1 .w PiecePool.empty PiecePool.empty
    "e2e4" (by decide) (by decide) (by decide) (Or.inl (by decide))

/-- C6 counterexample: at the concrete pool state with one busy engine and
one caller waiting in the acquire queue, `shutdown()` produces no
completion event for the waiter at all, contradicting the claim that every
waiting caller has its pending acquisition completed with an error. -/
theorem pool_shutdown_counterexample :
    ¬ (∀ w ∈ (EnginePoolState.mk [] [7] [0] true).waitingQueue,
        PoolEvent.waiterRejected w ∈
          (poolShutdown (EnginePoolState.mk [] [7] [0] true)).2) := by
  decide

/-- C6 amended: `shutdown()` cancels the reaper timer, invokes `shutdown()`
on every engine (available and busy) and clears the waiter queue, but it
settles no pending acquisition: the queued resolve callbacks are discarded,
so waiting callers receive neither an engine nor an error. -/
theorem pool_shutdown_behavior (s : EnginePoolState) :
    (poolShutdown s).1.cleanupTimerActive = false
    ∧ (poolShutdown s).2
        = (s.availableEngines ++ s.busyEngines).map PoolEvent.engineShutdown
    ∧ (poolShutdown s).1.waitingQueue = []
    ∧ (∀ w, PoolEvent.waiterRejected w ∉ (poolShutdown s).2)
    ∧ (∀ w e, PoolEvent.waiterResolved w e ∉ (poolShutdown s).2) := by
  refine ⟨rfl, rfl, rfl, ?_, ?_⟩
  · intro w
    simp [poolShutdown]
  · intro w e
    simp [poolShutdown]

/-- C10: every call to `Board.reset()`, `Board.clone()` or
`Board.dropPiece()` dereferences the `piecePool` property, which is never
declared or assigned on the `Board` class, so each throws a `TypeError`
and none of the three operations ever completes successfully. -/
theorem board_piecePool_typeError (b : BoardFields) (t : PieceType) (sq : String) :
    boardDropPiece b t sq = .error .typeError
    ∧ boardReset b = .error .typeError
    ∧ boardClone b = .error .typeError :=
  ⟨rfl, rfl, rfl⟩

/-- C4: For every bot and every decision cycle, while the bot is in the
Sitting state the controller returns without applying a move for it: the
whole game state (in particular both boards' move-history lengths) is
unchanged between entry and exit of the cycle. -/
theorem sitting_bot_does_not_move (s : GameState) (bid : BoardSide)
    (eid : EngineId) (o : EngineOracle)
    (h : stallingOf s (identifyBot bid eid) ≠ none) :
    makeEngineMove s bid eid o = (s, [])
    ∧ (makeEngineMove s bid eid o).1.playerBoard.moveHistory.length
        = s.playerBoard.moveHistory.length
    ∧ (makeEngineMove s bid eid o).1.partnerBoard.moveHistory.length
        = s.partnerBoard.moveHistory.length := by
  obtain ⟨r, hr⟩ := Option.ne_none_iff_exists'.mp h
  unfold makeEngineMove
  dsimp only
  rw [hr]
  exact ⟨rfl, rfl, rfl⟩

/-- Witness for C4: a concrete sitting Bot 1, via the theorem applied at
explicit inputs. -/
theorem sitting_bot_does_not_move_witness :
    stallingOf bot1SittingState (identifyBot .player .player) ≠ none
    ∧ (makeEngineMove bot1SittingState .player .player oracleD7D5).1.playerBoard.moveHistory.length
        = bot1SittingState.playerBoard.moveHistory.length :=
  ⟨by decide,
    (sitting_bot_does_not_move bot1SittingState .player .player oracleD7D5
      (by decide)).2.1⟩

/-- C8: The Sit command stalls Partner with reason `player_command` and
`playerInduced = true`; no time-based abandonment, no capture fulfillment,
no decision cycle and no human move removes such a stall; the Go command
is the only exit, clearing the stall and setting the one-turn
forced-to-go latch; and under that latch the next decision cycle for
Partner plays a move immediately (resetting the latch) instead of
re-stalling. -/
theorem player_induced_stall_lifecycle :
    (∀ s : GameState, s.stallingPartner = none →
      sendSitCommandEffect s
        = ({ s with stallingPartner := some { piece := .q, reason := "player_command", playerInduced := true } },
            [⟨"Partner", "I sit."⟩]))
    ∧ (∀ (s : GameState) (times : Option ClockTimes) (rec0 : StallRecord),
        s.stallingPartner = some rec0 → rec0.playerInduced = true →
        (checkTimeBasedStallAbandonment s times).1.stallingPartner = some rec0)
    ∧ (∀ (s : GameState) (bid : BoardSide) (eid : EngineId) (mv : EngineMove),
        (executeMoveOnBoard s bid eid mv).1.stallingPartner = s.stallingPartner)
    ∧ (∀ (s : GameState) (bid : BoardSide) (eid : EngineId) (o : EngineOracle)
        (rec0 : StallRecord), s.stallingPartner = some rec0 →
        (makeEngineMove s bid eid o).1.stallingPartner = some rec0)
    ∧ (∀ (s : GameState) (f t : String) (p : Option String)
        (term : Option GameStatus) (k : BotName),
        stallingOf (makePlayerMovePhase1 s f t p term).1 k = stallingOf s k)
    ∧ (∀ (s : GameState) (rec0 : StallRecord), s.stallingPartner = some rec0 →
        sendGoCommandEffect s
          = ({ s with stallingPartner := none, requestPartner := none, partnerForcedToGo := true },
              [⟨"Partner", "I go."⟩]))
    ∧ (∀ (s : GameState) (o : EngineOracle),
        s.stallingPartner = none → s.partnerForcedToGo = true →
        s.status = .inProgress → o.bestMove.drop = none →
        (makeEngineMove s .partner .partner2 o).1.stallingPartner = none
        ∧ (makeEngineMove s .partner .partner2 o).1.partnerForcedToGo = false
        ∧ (makeEngineMove s .partner .partner2 o).1.partnerBoard.moveHistory.length
            = s.partnerBoard.moveHistory.length + 1) := by
  refine ⟨?_, ?_, ?_, ?_, ?_, ?_, ?_⟩
  · intro s h
    simp [sendSitCommandEffect, h]
  · intro s times rec0 h hp
    exact checkTimeAbandonment_playerInduced s times rec0 h hp
  · intro s bid eid mv
    exact executeMoveOnBoard_stallingPartner s bid eid mv
  · intro s bid eid o rec0 h
    exact makeEngineMove_keeps_partner_stall s bid eid o rec0 h
  · intro s f t p term k
    exact makePlayerMovePhase1_stalling s f t p term k
  · intro s rec0 h
    simp [sendGoCommandEffect, h]
  · intro s o h1 h2 h3 h4
    simp [makeEngineMove, identifyBot, stallingOf, h1, h2]
    refine ⟨?_, ?_, ?_⟩
    · simp [executeMoveOnBoard_stallingPartner]
    · simp [(executeMoveOnBoard_preserves _ _ _ _).2.2]
    · exact executeMoveOnBoard_partnerHistory _ .partner2 o.bestMove (by exact h3) h4

/-- Witness for C8: at a concrete player-induced Partner stall, time-based
abandonment leaves the stall in place, via the theorem applied at explicit
inputs. -/
theorem player_induced_stall_lifecycle_witness :
    (checkTimeBasedStallAbandonment partnerSittingState
        (some { playerWhite := 1000, playerBlack := 1000, partnerWhite := 1000, partnerBlack := 1000 })).1.stallingPartner
      = some { piece := .q, reason := "player_command", playerInduced := true } :=
  player_induced_stall_lifecycle.2.1 partnerSittingState
    (some { playerWhite := 1000, playerBlack := 1000, partnerWhite := 1000, partnerBlack := 1000 })
    { piece := .q, reason := "player_command", playerInduced := true }
    (by decide) (by decide)

/-- C2 counterexample: with Partner stalling for a pawn (scenario
`forces_mate`, not player-induced) the human captures a black pawn — a
capture satisfying the request — yet Partner's stall is not cleared: the
human's move path performs no fulfillment, so the claimed
"Partner's requests fulfilled by the human player's captures" fails. -/
theorem partner_fulfillment_by_human_counterexample :
    stallingOf partnerStallState .partner
        = some { piece := .p, reason := "forces_mate" }
    ∧ getPieceAt partnerStallState.playerBoard.fen "d5" = some 'p'
    ∧ piecesFulfillRequest .p .p = true
    ∧ (makePlayerMovePhase1 partnerStallState "e4" "d5" none none).2 = true
    ∧ stallingOf (makePlayerMovePhase1 partnerStallState "e4" "d5" none none).1 .partner
        = some { piece := .p, reason := "forces_mate" } := by
  refine ⟨rfl, ?_, rfl, ?_, ?_⟩ <;> decide

/-- C2 amended: fulfillment credit in the bot-capture path is granted only
when the capturer is the stalling bot's actual partner (so Bot 1's
requests only by Bot 2's captures and Bot 2's only by Bot 1's); a bot
never fulfills its own request; Partner's requests are never fulfilled by
any capture — the bot-capture path skips them because Partner's expected
partner is `null`, and the human's move path performs no fulfillment at
all. -/
theorem fulfillment_requires_actual_partner :
    (∀ (s : GameState) (ct : PieceType) (cb k : BotName),
        fulfillForBot s ct cb k ≠ (s, [], []) → getPartnerBotName k = some cb)
    ∧ (∀ (s : GameState) (ct : PieceType) (cb : BotName),
        fulfillForBot s ct cb cb = (s, [], []))
    ∧ (∀ (s : GameState) (ct : PieceType) (cb : BotName),
        fulfillForBot s ct cb .partner = (s, [], []))
    ∧ (∀ (s : GameState) (f t : String) (p : Option String)
        (term : Option GameStatus) (k : BotName),
        stallingOf (makePlayerMovePhase1 s f t p term).1 k = stallingOf s k) := by
  have h1 : ∀ (s : GameState) (ct : PieceType) (cb k : BotName),
      fulfillForBot s ct cb k ≠ (s, [], []) → getPartnerBotName k = some cb := by
    intro s ct cb k h
    cases k with
    | partner => exact absurd (fulfillForBot_partner_id s ct cb) h
    | bot1 =>
      simp only [fulfillForBot] at h
      cases hb : stallingOf s .bot1 with
      | none => rw [hb] at h; exact absurd rfl h
      | some rec0 =>
        rw [hb] at h
        dsimp only at h
        simp only [getPartnerBotName] at h ⊢
        split_ifs at h
        all_goals simp_all
    | bot2 =>
      simp only [fulfillForBot] at h
      cases hb : stallingOf s .bot2 with
      | none => rw [hb] at h; exact absurd rfl h
      | some rec0 =>
        rw [hb] at h
        dsimp only at h
        simp only [getPartnerBotName] at h ⊢
        split_ifs at h
        all_goals simp_all
  refine ⟨h1, ?_, fun s ct cb => fulfillForBot_partner_id s ct cb,
    fun s f t p term k => makePlayerMovePhase1_stalling s f t p term k⟩
  intro s ct cb
  by_contra hne
  have hcb := h1 s ct cb cb hne
  cases cb <;> simp [getPartnerBotName] at hcb

/-- Witness for C2's amended theorem: a concrete fulfillment (Bot 1's
stall cleared by Bot 2's capture) implies the capturer is Bot 1's actual
partner, via the theorem applied at explicit inputs. -/
theorem fulfillment_requires_actual_partner_witness :
    fulfillForBot bot1SittingState .n .bot2 .bot1 ≠ (bot1SittingState, [], [])
    ∧ getPartnerBotName .bot1 = some .bot2 :=
  ⟨by decide,
    fulfillment_requires_actual_partner.1 bot1SittingState .n .bot2 .bot1 (by decide)⟩

/-- C5: For every applied move that is a non-drop capture (processed one at
a time, as the coordinator is invoked after each move), exactly one unit
of the captured piece's type is added to the pool of the captured piece's
own colour on the other board and no other pool changes; drop moves, on
either board, add nothing to any pool; and after `e2e4`, `d7d5`, `e4xd5` on the player board
from the initial position, the partner board's black pool holds exactly
one pawn and every other pool is unchanged. -/
theorem piece_flow_cross_board :
    (∀ (s : GameState) (m : MoveRec) (c : Char) (pt : PieceType),
      s.playerBoard.moveHistory.length = s.lastPlayerMoveCount + 1 →
      s.playerBoard.moveHistory.getLast? = some m →
      m.drop = none → m.captured = some c →
      pieceTypeOfChar c.toLower = some pt →
      s.partnerBoard.moveHistory.length ≤ s.lastPartnerMoveCount →
      ((isWhitePieceChar c = true →
        (∀ t, (updatePiecePools s).partnerBoard.whitePiecePool.getCount t
            = s.partnerBoard.whitePiecePool.getCount t + (if t = pt then 1 else 0))
        ∧ (updatePiecePools s).partnerBoard.blackPiecePool
            = s.partnerBoard.blackPiecePool)
      ∧ (isWhitePieceChar c = false →
        (∀ t, (updatePiecePools s).partnerBoard.blackPiecePool.getCount t
            = s.partnerBoard.blackPiecePool.getCount t + (if t = pt then 1 else 0))
        ∧ (updatePiecePools s).partnerBoard.whitePiecePool
            = s.partnerBoard.whitePiecePool)
      ∧ (updatePiecePools s).playerBoard.whitePiecePool = s.playerBoard.whitePiecePool
      ∧ (updatePiecePools s).playerBoard.blackPiecePool = s.playerBoard.blackPiecePool))
    ∧ (∀ (s : GameState) (m : MoveRec) (c : Char) (pt : PieceType),
      s.partnerBoard.moveHistory.length = s.lastPartnerMoveCount + 1 →
      s.partnerBoard.moveHistory.getLast? = some m →
      m.drop = none → m.captured = some c →
      pieceTypeOfChar c.toLower = some pt →
      s.playerBoard.moveHistory.length ≤ s.lastPlayerMoveCount →
      ((isWhitePieceChar c = true →
        (∀ t, (updatePiecePools s).playerBoard.whitePiecePool.getCount t
            = s.playerBoard.whitePiecePool.getCount t + (if t = pt then 1 else 0))
        ∧ (updatePiecePools s).playerBoard.blackPiecePool
            = s.playerBoard.blackPiecePool)
      ∧ (isWhitePieceChar c = false →
        (∀ t, (updatePiecePools s).playerBoard.blackPiecePool.getCount t
            = s.playerBoard.blackPiecePool.getCount t + (if t = pt then 1 else 0))
        ∧ (updatePiecePools s).playerBoard.whitePiecePool
            = s.playerBoard.whitePiecePool)
      ∧ (updatePiecePools s).partnerBoard.whitePiecePool = s.partnerBoard.whitePiecePool
      ∧ (updatePiecePools s).partnerBoard.blackPiecePool = s.partnerBoard.blackPiecePool))
    ∧ (∀ (s : GameState) (m : MoveRec) (d : PieceType),
      s.playerBoard.moveHistory.length = s.lastPlayerMoveCount + 1 →
      s.playerBoard.moveHistory.getLast? = some m →
      m.drop = some d →
      s.partnerBoard.moveHistory.length ≤ s.lastPartnerMoveCount →
      ((updatePiecePools s).playerBoard.whitePiecePool = s.playerBoard.whitePiecePool
      ∧ (updatePiecePools s).playerBoard.blackPiecePool = s.playerBoard.blackPiecePool
      ∧ (updatePiecePools s).partnerBoard.whitePiecePool = s.partnerBoard.whitePiecePool
      ∧ (updatePiecePools s).partnerBoard.blackPiecePool = s.partnerBoard.blackPiecePool))
    ∧ (∀ (s : GameState) (m : MoveRec) (d : PieceType),
      s.partnerBoard.moveHistory.length = s.lastPartnerMoveCount + 1 →
      s.partnerBoard.moveHistory.getLast? = some m →
      m.drop = some d →
      s.playerBoard.moveHistory.length ≤ s.lastPlayerMoveCount →
      ((updatePiecePools s).playerBoard.whitePiecePool = s.playerBoard.whitePiecePool
      ∧ (updatePiecePools s).playerBoard.blackPiecePool = s.playerBoard.blackPiecePool
      ∧ (updatePiecePools s).partnerBoard.whitePiecePool = s.partnerBoard.whitePiecePool
      ∧ (updatePiecePools s).partnerBoard.blackPiecePool = s.partnerBoard.blackPiecePool))
    ∧ (gameAfterS1.partnerBoard.blackPiecePool = { p := 1, n := 0, b := 0, r := 0, q := 0 }
      ∧ gameAfterS1.partnerBoard.whitePiecePool = PiecePool.empty
      ∧ gameAfterS1.playerBoard.whitePiecePool = PiecePool.empty
      ∧ gameAfterS1.playerBoard.blackPiecePool = PiecePool.empty) := by
  refine ⟨?_, ?_, ?_, ?_, by decide⟩
  · intro s m c pt h1 h2 h3 h4 h5 h6
    have hc1 : s.lastPlayerMoveCount < s.playerBoard.moveHistory.length := by omega
    unfold updatePiecePools
    dsimp only
    rw [if_pos hc1, h2]
    dsimp only
    rw [h4, h3]
    dsimp only
    rw [h5]
    dsimp only
    refine ⟨fun hx => ?_, fun hx => ?_, ?_, ?_⟩
    · rw [hx]
      rw [if_pos rfl]
      rw [if_neg (Nat.not_lt.mpr h6)]
      exact ⟨fun t => PiecePool.getCount_addPiece _ pt t, rfl⟩
    · rw [hx]
      rw [if_neg Bool.false_ne_true]
      rw [if_neg (Nat.not_lt.mpr h6)]
      exact ⟨fun t => PiecePool.getCount_addPiece _ pt t, rfl⟩
    · cases hw : isWhitePieceChar c
      · rw [if_neg Bool.false_ne_true]
        rw [if_neg (Nat.not_lt.mpr h6)]
      · rw [if_pos rfl]
        rw [if_neg (Nat.not_lt.mpr h6)]
    · cases hw : isWhitePieceChar c
      · rw [if_neg Bool.false_ne_true]
        rw [if_neg (Nat.not_lt.mpr h6)]
      · rw [if_pos rfl]
        rw [if_neg (Nat.not_lt.mpr h6)]
  · intro s m c pt h1 h2 h3 h4 h5 h6
    have hc1 : s.lastPartnerMoveCount < s.partnerBoard.moveHistory.length := by omega
    unfold updatePiecePools
    dsimp only
    rw [if_neg (Nat.not_lt.mpr h6)]
    rw [if_pos hc1, h2]
    dsimp only
    rw [h4, h3]
    dsimp only
    rw [h5]
    dsimp only
    refine ⟨fun hx => ?_, fun hx => ?_, ?_, ?_⟩
    · rw [hx]
      rw [if_pos rfl]
      exact ⟨fun t => PiecePool.getCount_addPiece _ pt t, rfl⟩
    · rw [hx]
      rw [if_neg Bool.false_ne_true]
      exact ⟨fun t => PiecePool.getCount_addPiece _ pt t, rfl⟩
    · cases hw : isWhitePieceChar c
      · rw [if_neg Bool.false_ne_true]
      · rw [if_pos rfl]
    · cases hw : isWhitePieceChar c
      · rw [if_neg Bool.false_ne_true]
      · rw [if_pos rfl]
  · intro s m d h1 h2 h3 h6
    have hc1 : s.lastPlayerMoveCount < s.playerBoard.moveHistory.length := by omega
    unfold updatePiecePools
    dsimp only
    rw [if_pos hc1, h2]
    dsimp only
    rw [h3]
    cases hcap : m.captured <;>
      (dsimp only
       rw [if_neg (Nat.not_lt.mpr h6)]
       exact ⟨rfl, rfl, rfl, rfl⟩)
  · intro s m d h1 h2 h3 h6
    have hc1 : s.lastPartnerMoveCount < s.partnerBoard.moveHistory.length := by omega
    unfold updatePiecePools
    dsimp only
    rw [if_neg (Nat.not_lt.mpr h6)]
    rw [if_pos hc1, h2]
    dsimp only
    rw [h3]
    cases hcap : m.captured <;>
      (dsimp only
       exact ⟨rfl, rfl, rfl, rfl⟩)

/-- Witness for C5: the pending black-pawn capture adds exactly one pawn to
the partner board's black pool, via the theorem applied at explicit
inputs. -/
theorem piece_flow_cross_board_witness :
    (updatePiecePools pendingCaptureState).partnerBoard.blackPiecePool.getCount .p
      = pendingCaptureState.partnerBoard.blackPiecePool.getCount .p + 1 := by
  have h := (piece_flow_cross_board.1 pendingCaptureState capturedPawnMove 'p' .p
    (by decide) (by decide) (by decide) (by decide) (by decide) (by decide)).2.1
  have h2 := (h (by decide)).1 .p
  simpa using h2

end Bughouse
